import Mathlib

/-!
Verification of the F1-Race-Predictor race simulation engine.

This file gives a shallow embedding in Lean 4 of the core simulation code:

  * `models/base_race_model.py` — the `RaceSimulator` class
    (qualifying, lap-by-lap race progression, incident model, result
    compiler), together with the attribute records it reads
    (`data/driver_data.py`, `data/team_data.py`, `data/track_data.py`,
    `models/weather_model.py`);
  * `models/advanced_race_model.py` — the post-race adjustment
    `_apply_real_data_race_adjustments` of `EnhancedRaceSimulator`.

Python floats are modelled as rationals (`ℚ`); the process-wide random
generator is modelled as an explicit oracle supplying every draw the code
makes, so each theorem quantifies over all possible random outcomes.
`random.choice` over a list of length `n` is modelled by an oracle index
taken modulo `n`.  A Python `KeyError` (an unmatched team lookup) is
modelled by `Option`: `none` is the aborted simulation.
-/

namespace F1

attribute [local semireducible] Rat.mul Rat.add Rat.inv Rat.sub

/-- `RaceIncident` enum from `base_race_model.py`. -/
inductive RaceIncident where
  | NONE
  | MECHANICAL_FAILURE
  | DRIVER_ERROR
  | COLLISION
  | PUNCTURE
  | WEATHER_RELATED
  | PENALTY
  | PIT_ERROR
deriving DecidableEq, Repr

/-- `Driver` record from `data/driver_data.py` (fields the engine reads). -/
structure Driver where
  name : String
  team : String
  experience : ℚ
  skill_wet : ℚ
  skill_dry : ℚ
  skill_overtaking : ℚ
  consistency : ℚ
  aggression : ℚ
deriving DecidableEq, Repr

/-- `Driver.get_overall_rating` from `data/driver_data.py`. -/
def Driver.get_overall_rating (d : Driver) : ℚ :=
  d.skill_dry * (35/100) + d.skill_wet * (15/100) + d.skill_overtaking * (20/100)
    + d.consistency * (20/100) + d.experience * (10/100)

/-- `Team` record from `data/team_data.py` (fields the engine reads). -/
structure Team where
  name : String
  performance : ℚ
  reliability : ℚ
  pit_efficiency : ℚ
  development_rate : ℚ
  aerodynamics : ℚ
  power : ℚ
deriving DecidableEq, Repr

/-- `Team.get_car_rating` from `data/team_data.py`. -/
def Team.get_car_rating (t : Team) : ℚ :=
  t.performance * (3/10) + t.reliability * (2/10) + t.aerodynamics * (25/100)
    + t.power * (25/100)

/-- `WeatherCondition` from `models/weather_model.py` (fields the engine reads). -/
structure Weather where
  condition : String
  rain_intensity : ℚ
deriving DecidableEq, Repr

/-- `WeatherCondition.is_wet` property from `models/weather_model.py`. -/
def Weather.is_wet (w : Weather) : Bool :=
  w.condition == "wet" || (w.condition == "mixed" && decide (w.rain_intensity > 3))

/-- `Track` record from `data/track_data.py` (fields the engine reads). -/
structure Track where
  length_km : ℚ
  laps : Nat
  tyre_wear : ℚ
deriving DecidableEq, Repr

/-- Team lookup loop in `RaceSimulator.__init__` (`base_race_model.py`
lines 94-99): the first team whose `name` equals the driver's `team`
string; `none` when no team matches (the Python dict then has no entry
for the driver, and any later `self.driver_teams[driver]` raises). -/
def driverTeams (teams : List Team) (d : Driver) : Option Team :=
  teams.find? (fun t => d.team == t.name)

/-- The capped per-lap incident probability computed by
`RaceSimulator._simulate_incidents` (`base_race_model.py` lines 197-237):
base chance times consistency, reliability, weather, first-lap, late-race,
rookie and aggression multipliers, then `min`-capped at `0.15`. -/
def incidentChance (w : Weather) (driver : Driver) (team : Team)
    (lap totalLaps : Nat) : ℚ :=
  let base_incident_chance : ℚ := 1/1000
  let driver_incident_factor := 2 - driver.consistency / 100 * (3/2)
  let car_incident_factor := 2 - team.reliability / 100 * (17/10)
  let weather_factor : ℚ :=
    if w.condition = "wet" then 4 else if w.condition = "mixed" then 5/2 else 1
  let first_lap_factor : ℚ := if lap < 3 then 8 else 1
  let last_lap_factor : ℚ := if (lap : ℚ) > (totalLaps : ℚ) * (8/10) then 2 else 1
  let exp_factor : ℚ := if driver.experience < 2 then 3/2 else 1
  let aggression_factor : ℚ := 1 + driver.aggression / 100 * (8/10)
  min (base_incident_chance * driver_incident_factor * car_incident_factor *
    weather_factor * first_lap_factor * last_lap_factor * exp_factor *
    aggression_factor) (15/100)

/-- One bundle of random draws consumed for one driver on one lap of the
race (`_calculate_race_pace` jitter, the per-lap variation, and the draws
of `_simulate_incidents`). -/
structure LapRng where
  paceRand : ℚ
  lapVar : ℚ
  incOccur : ℚ
  incRoll : ℚ
  pitCoin : ℚ
  descIx : Nat
deriving DecidableEq, Repr

/-- Description pool for mechanical failures (`base_race_model.py`). -/
def mechanicalDescriptions (d : Driver) : List String :=
  ["Engine failure for " ++ d.name,
   "Gearbox issue forces " ++ d.name ++ " to retire",
   "Hydraulic system failure for " ++ d.name,
   "Power unit problem for " ++ d.name,
   "Brake failure for " ++ d.name]

/-- Description pool for driver errors (`base_race_model.py`). -/
def driverErrorDescriptions (d : Driver) : List String :=
  [d.name ++ " spins off track",
   d.name ++ " locks up and goes into the gravel",
   "Racing incident involving " ++ d.name,
   d.name ++ " exceeds track limits and damages the car",
   "Driving error forces " ++ d.name ++ " to retire"]

/-- Description pool for collisions (`base_race_model.py`). -/
def collisionDescriptions (d : Driver) : List String :=
  ["Collision damage forces " ++ d.name ++ " to retire",
   d.name ++ " involved in racing incident",
   "Contact with another car damages " ++ d.name ++ "'s suspension",
   "Multi-car collision involves " ++ d.name,
   "Wing damage from contact forces " ++ d.name ++ " to retire"]

/-- Description pool for punctures (`base_race_model.py`). -/
def punctureDescriptions (d : Driver) : List String :=
  ["Puncture for " ++ d.name,
   d.name ++ " suffers tire failure",
   "Debris causes puncture for " ++ d.name,
   "Tire delamination for " ++ d.name,
   "Slow puncture affects " ++ d.name ++ "'s race"]

/-- Description pool for weather-related incidents (`base_race_model.py`). -/
def weatherDescriptions (d : Driver) : List String :=
  [d.name ++ " aquaplanes off track",
   "Poor visibility causes " ++ d.name ++ " to crash",
   d.name ++ " slides off in wet conditions",
   "Standing water causes " ++ d.name ++ " to lose control",
   "Wet track catches " ++ d.name ++ " out"]

/-- Description pool for pit errors (`base_race_model.py`). -/
def pitErrorDescriptions (d : Driver) : List String :=
  ["Pit stop error costs " ++ d.name ++ " the race",
   "Wheel not attached properly for " ++ d.name,
   "Fire during pit stop forces " ++ d.name ++ " to retire",
   "Major delay in the pits for " ++ d.name,
   "Unsafe release leads to retirement for " ++ d.name]

/-- Description pool for penalties (`base_race_model.py`). -/
def penaltyDescriptions (d : Driver) : List String :=
  [d.name ++ " black flagged for rule infringement",
   "Technical infringement disqualifies " ++ d.name,
   "Safety violation forces " ++ d.name ++ " to retire",
   "Stewards give " ++ d.name ++ " black flag",
   "Disqualification for " ++ d.name]

/-- `random.choice` over a nonempty description pool, modelled by the
oracle index modulo the pool length. -/
def pickDescription (descs : List String) (ix : Nat) : String :=
  descs.getD (ix % descs.length) ""

/-- `RaceSimulator._simulate_incidents` (`base_race_model.py` lines
195-325): occurrence draw against the capped chance, then the weighted
classification ladder, then a description choice. -/
def simulateIncidents (w : Weather) (driver : Driver) (team : Team)
    (lap totalLaps : Nat) (r : LapRng) : RaceIncident × String :=
  if r.incOccur < incidentChance w driver team lap totalLaps then
    if r.incRoll < (3/10) * (1 - team.reliability/100) * 2 then
      (RaceIncident.MECHANICAL_FAILURE, pickDescription (mechanicalDescriptions driver) r.descIx)
    else if r.incRoll < 1/2 then
      (RaceIncident.DRIVER_ERROR, pickDescription (driverErrorDescriptions driver) r.descIx)
    else if r.incRoll < 7/10 then
      (RaceIncident.COLLISION, pickDescription (collisionDescriptions driver) r.descIx)
    else if r.incRoll < 8/10 then
      (RaceIncident.PUNCTURE, pickDescription (punctureDescriptions driver) r.descIx)
    else if r.incRoll < 9/10 ∧ w.is_wet = true then
      (RaceIncident.WEATHER_RELATED, pickDescription (weatherDescriptions driver) r.descIx)
    else if r.pitCoin < 1/2 then
      (RaceIncident.PIT_ERROR, pickDescription (pitErrorDescriptions driver) r.descIx)
    else
      (RaceIncident.PENALTY, pickDescription (penaltyDescriptions driver) r.descIx)
  else (RaceIncident.NONE, "")

/-- `RaceSimulator._calculate_race_pace` (`base_race_model.py` lines
168-193); `randFactor` is the `random.uniform(-0.2, 0.2)` draw. -/
def calculateRacePace (track : Track) (w : Weather) (driver : Driver) (team : Team)
    (randFactor : ℚ) : ℚ :=
  let base_time := 90 + (track.length_km - 5) * 5
  let driver_factor := 3 * (1 - driver.get_overall_rating / 100)
  let car_factor := (5/2) * (1 - team.get_car_rating / 100)
  let weather_impact :=
    if w.is_wet then (3/2) * (1 - driver.skill_wet / 100)
    else (1/2) * (1 - driver.skill_dry / 100)
  base_time + driver_factor + car_factor + weather_impact + randFactor

/-- Tire degradation term of the lap loop (`base_race_model.py` line 360). -/
def tireDegradation (track : Track) (lap : Nat) : ℚ :=
  (5/100) * ((lap : ℚ) / 20) * (track.tyre_wear / 10)

/-- Fuel-burn term of the lap loop (`base_race_model.py` line 363). -/
def fuelFactor (lap : Nat) : ℚ :=
  -(2/100) * ((lap : ℚ) / 10)

/-- Traffic term of the lap loop (`base_race_model.py` line 367). -/
def trafficFactor (position : Nat) : ℚ :=
  (1/10) * max 0 (((position : ℚ) - 5) / 10)

/-- The final lap time of the lap-progression step (`base_race_model.py`
line 373): the race pace multiplied by one plus the tire, fuel, traffic
and random-variation terms. -/
def finalLapTime (lapTime tireDeg fuelF trafficF randVariation : ℚ) : ℚ :=
  lapTime * (1 + tireDeg + fuelF + trafficF + randVariation)

/-- Per-driver mutable race state (the `driver_status` dict entries of
`simulate_race`). -/
structure DriverRaceState where
  active : Bool
  incident : RaceIncident
  description : String
  current_position : Nat
deriving DecidableEq, Repr

/-- The whole mutable state of the lap loop of `simulate_race`:
`driver_status`, `driver_times` and the `fastest_lap` tracker. -/
structure RaceState where
  ds : Driver → DriverRaceState
  time : Driver → ℚ
  fastest : Option (Driver × ℚ)

/-- Initial `driver_status` of `simulate_race` (`base_race_model.py`
lines 340-342): everyone active, no incident, position = grid slot. -/
def initDriverState (grid : List Driver) : Driver → DriverRaceState := fun d =>
  { active := true, incident := RaceIncident.NONE, description := "",
    current_position := grid.indexOf d + 1 }

/-- The body of the inner per-driver loop of `simulate_race`
(`base_race_model.py` lines 353-388): compute the lap time, update the
fastest lap, accumulate the race time, then roll for an incident.
`none` models the `KeyError` raised when the driver has no team. -/
def driverLapStep (track : Track) (w : Weather) (teams : List Team)
    (rng : Nat → Driver → LapRng) (lap totalLaps : Nat)
    (st : RaceState) (d : Driver) : Option RaceState := do
  let team ← driverTeams teams d
  let r := rng lap d
  let lap_time := calculateRacePace track w d team r.paceRand
  let final_lap_time := finalLapTime lap_time (tireDegradation track lap)
    (fuelFactor lap) (trafficFactor (st.ds d).current_position) r.lapVar
  let fastest' :=
    match st.fastest with
    | none => some (d, final_lap_time)
    | some (fd, ft) => if final_lap_time < ft then some (d, final_lap_time) else some (fd, ft)
  let time' := fun x => if x = d then st.time x + final_lap_time else st.time x
  let (inc, desc) := simulateIncidents w d team lap totalLaps r
  let ds' :=
    if inc ≠ RaceIncident.NONE then
      fun x => if x = d then
        { st.ds x with active := false, incident := inc, description := desc }
      else st.ds x
    else st.ds
  pure { ds := ds', time := time', fastest := fastest' }

/-- Position reassignment at the end of each lap (`base_race_model.py`
lines 394-395): the i-th driver of the sorted active list gets current
position i+1. -/
def setPositions (ds : Driver → DriverRaceState) (l : List Driver) :
    Driver → DriverRaceState :=
  l.enum.foldl
    (fun f p => fun x =>
      if x = p.2 then { f x with current_position := p.1 + 1 } else f x)
    ds

/-- One iteration of the lap loop of `simulate_race` (`base_race_model.py`
lines 350-395): update every still-active driver in grid order, then
recompute running positions by ascending cumulative time (a stable sort,
like Python's `sorted`). -/
def lapStep (track : Track) (w : Weather) (teams : List Team)
    (rng : Nat → Driver → LapRng) (grid : List Driver) (totalLaps : Nat)
    (st : RaceState) (lap : Nat) : Option RaceState := do
  let activeDrivers := grid.filter (fun d => (st.ds d).active)
  let st' ← activeDrivers.foldlM (driverLapStep track w teams rng lap totalLaps) st
  let active2 := grid.filter (fun d => (st'.ds d).active)
  let sortedDrivers := active2.insertionSort (fun a b => st'.time a ≤ st'.time b)
  pure { st' with ds := setPositions st'.ds sortedDrivers }

/-- The 2023 points table of `simulate_race` (`base_race_model.py` line 441). -/
def points_system : List Nat := [25, 18, 15, 12, 10, 8, 6, 4, 2, 1]

/-- Status resolution of the result compiler (`base_race_model.py` lines
419-424): active drivers finished; a `PENALTY` retirement is disqualified;
any other retirement did not finish. -/
def statusOf (st : DriverRaceState) : String :=
  if st.active then "Finished"
  else if st.incident = RaceIncident.PENALTY then "DSQ"
  else "DNF"

/-- `DriverRaceResult` dataclass from `base_race_model.py`. -/
structure DriverRaceResult where
  driver : Driver
  team : Team
  starting_position : Nat
  finishing_position : Nat
  time : ℚ
  status : String
  fastest_lap : Bool
  incident : RaceIncident
  incident_description : String
  points : Nat
deriving DecidableEq, Repr

/-- One result record of the compile loop of `simulate_race`
(`base_race_model.py` lines 414-447), including the points assignment. -/
def mkResult (grid : List Driver) (ds : Driver → DriverRaceState)
    (time : Driver → ℚ) (fastestDriver : Option Driver)
    (position : Nat) (d : Driver) (team : Team) : DriverRaceResult :=
  let st := ds d
  let status := statusOf st
  let fl := decide (fastestDriver = some d)
  let pts :=
    if status = "Finished" then
      (if position ≤ points_system.length then points_system.getD (position - 1) 0 else 0)
        + (if fl = true ∧ position ≤ 10 then 1 else 0)
    else 0
  { driver := d, team := team, starting_position := grid.indexOf d + 1,
    finishing_position := position, time := time d, status := status,
    fastest_lap := fl, incident := st.incident,
    incident_description := st.description, points := pts }

/-- The result-creation loop `for position, driver in
enumerate(final_positions, 1)` of `simulate_race`, with the team lookup
that can raise a `KeyError` (`none`). -/
def compileFrom (teams : List Team) (grid : List Driver)
    (ds : Driver → DriverRaceState) (time : Driver → ℚ)
    (fastestDriver : Option Driver) :
    Nat → List Driver → Option (List DriverRaceResult)
  | _, [] => some []
  | position, d :: rest => do
      let team ← driverTeams teams d
      let r := mkResult grid ds time fastestDriver position d team
      let rs ← compileFrom teams grid ds time fastestDriver (position + 1) rest
      pure (r :: rs)

/-- The result compiler of `simulate_race` (`base_race_model.py` lines
397-449): active drivers sorted ascending by race time, inactive drivers
sorted descending, concatenated, then turned into numbered result
records. Both sorts are stable, like Python's `list.sort`. -/
def compileResults (teams : List Team) (grid : List Driver)
    (ds : Driver → DriverRaceState) (time : Driver → ℚ)
    (fastestDriver : Option Driver) : Option (List DriverRaceResult) :=
  let active := grid.filter (fun d => (ds d).active)
  let inactive := grid.filter (fun d => !(ds d).active)
  let activeSorted := active.insertionSort (fun a b => time a ≤ time b)
  let inactiveSorted := inactive.insertionSort (fun a b => time b ≤ time a)
  compileFrom teams grid ds time fastestDriver 1 (activeSorted ++ inactiveSorted)

/-- `RaceSimulator.simulate_race` (`base_race_model.py` lines 327-454)
for a given starting grid: run the lap loop for laps `1..total_laps`,
then compile the final results. -/
def simulateRace (track : Track) (w : Weather) (teams : List Team)
    (rng : Nat → Driver → LapRng) (grid : List Driver) :
    Option (List DriverRaceResult) := do
  let totalLaps := track.laps
  let init : RaceState :=
    { ds := initDriverState grid, time := fun _ => 0, fastest := none }
  let final ← (List.range' 1 totalLaps).foldlM (lapStep track w teams rng grid totalLaps) init
  compileResults teams grid final.ds final.time (final.fastest.map Prod.fst)

/-- One bundle of random draws consumed for one driver in
`simulate_qualifying`. -/
structure QualRng where
  trackSpec : ℚ
  randFactor : ℚ
  j1 : ℚ
  j2 : ℚ
  j3 : ℚ
deriving DecidableEq, Repr

/-- The single-lap qualifying time of `simulate_qualifying`
(`base_race_model.py` lines 123-148). -/
def qualifyingLapTime (track : Track) (w : Weather) (d : Driver) (t : Team)
    (r : QualRng) : ℚ :=
  let base_time := 90 + (track.length_km - 5) * 5
  let driver_factor := 5 * (1 - d.get_overall_rating / 100)
  let car_factor := 3 * (1 - t.get_car_rating / 100)
  let weather_impact :=
    if w.is_wet then 2 * (1 - d.skill_wet / 100)
    else (1/2) * (1 - d.skill_dry / 100)
  base_time + driver_factor + car_factor + r.trackSpec + weather_impact + r.randFactor

/-- The best of the three qualifying attempts (`base_race_model.py` lines
150-156): the minimum of the lap time under three independent
multiplicative jitters. -/
def qualifyingBestTime (track : Track) (w : Weather) (d : Driver) (t : Team)
    (r : QualRng) : ℚ :=
  let lap_time := qualifyingLapTime track w d t r
  min (lap_time * r.j1) (min (lap_time * r.j2) (lap_time * r.j3))

/-- The accumulation loop of `simulate_qualifying` (`base_race_model.py`
lines 118-158), consuming one `QualRng` per driver in iteration order;
`none` models the `KeyError` for an unmatched team. -/
def qualifyingPerformances (track : Track) (w : Weather) (teams : List Team)
    (rng : Nat → QualRng) : Nat → List Driver → Option (List (Driver × ℚ))
  | _, [] => some []
  | i, d :: rest => do
      let t ← driverTeams teams d
      let rs ← qualifyingPerformances track w teams rng (i + 1) rest
      pure ((d, qualifyingBestTime track w d t (rng i)) :: rs)

/-- `RaceSimulator.simulate_qualifying` (`base_race_model.py` lines
111-166): collect per-driver best times, stable-sort ascending by time,
return the drivers. -/
def simulateQualifying (track : Track) (w : Weather) (teams : List Team)
    (rng : Nat → QualRng) (drivers : List Driver) : Option (List Driver) := do
  let perfs ← qualifyingPerformances track w teams rng 0 drivers
  pure ((perfs.insertionSort (fun a b => a.2 ≤ b.2)).map Prod.fst)

/-- `simulate_race` when no qualifying results were provided
(`base_race_model.py` lines 335-336): qualifying generates the grid. -/
def simulateRaceAuto (track : Track) (w : Weather) (teams : List Team)
    (rngQ : Nat → QualRng) (rngR : Nat → Driver → LapRng)
    (drivers : List Driver) : Option (List DriverRaceResult) := do
  let grid ← simulateQualifying track w teams rngQ drivers
  simulateRace track w teams rngR grid

/-- The per-driver external statistics read by
`_apply_real_data_race_adjustments` (`advanced_race_model.py`). -/
structure RealDriverStats where
  skill_overtaking : ℚ
  consistency : ℚ
deriving DecidableEq, Repr

/-- The per-team external statistics read by
`_apply_real_data_race_adjustments` (`advanced_race_model.py`). -/
structure RealTeamStats where
  reliability : ℚ
deriving DecidableEq, Repr

/-- One bundle of random draws consumed for one result record in
`_apply_real_data_race_adjustments`. -/
structure AdjustRng where
  boostOccur : ℚ
  boostChoiceIx : Nat
  consistencyRoll : ℚ
  incidentChoiceIx : Nat
  reliabilityRoll : ℚ
  mechRoll : ℚ
deriving DecidableEq, Repr

/-- Python's substring test `sub in s` on strings. -/
def containsStr (s sub : String) : Bool :=
  decide (List.IsInfix sub.toList s.toList)

/-- Python's `str.lower()` (ASCII lowering, which covers the team names
the code compares). -/
def strLower (s : String) : String := String.mk (s.toList.map Char.toLower)

/-- The body of the per-result adjustment loop of
`_apply_real_data_race_adjustments` (`advanced_race_model.py` lines
142-187): the overtaking position nudge and consistency incident for the
driver, then the reliability-based mechanical failure for the team (which
also rewrites status to "DNF" and the position to the field size).
External statistics lookups (`get_enhanced_driver_data`,
`_get_driver_abbreviation`, `get_enhanced_team_data`,
`_clean_team_name`) live in the excluded data-integration collaborator
and are taken as function parameters. -/
def adjustResult (realDriverData : String → Option RealDriverStats)
    (abbrevOf : String → String)
    (realTeamData : List (String × RealTeamStats))
    (cleanTeamName : String → String)
    (numResults : Nat) (r : AdjustRng) (result : DriverRaceResult) :
    DriverRaceResult :=
  let res1 :=
    match realDriverData (abbrevOf result.driver.name) with
    | none => result
    | some rd =>
      let resA :=
        if rd.skill_overtaking > 85 ∧
            result.starting_position > result.finishing_position then
          let position_boost :=
            if r.boostOccur < 3/10 then [0, 0, 1].getD (r.boostChoiceIx % 3) 0 else 0
          { result with
            finishing_position := max 1 (result.finishing_position - position_boost) }
        else result
      if rd.consistency < 70 ∧ r.consistencyRoll < 15/100 then
        if resA.incident = RaceIncident.NONE then
          { resA with
            incident := [RaceIncident.DRIVER_ERROR, RaceIncident.PUNCTURE,
              RaceIncident.PIT_ERROR].getD (r.incidentChoiceIx % 3)
                RaceIncident.DRIVER_ERROR,
            incident_description := "Real data suggests higher incident probability" }
        else resA
      else resA
  let team_name := cleanTeamName result.team.name
  match realTeamData.find? (fun p =>
      containsStr (strLower p.1) (strLower team_name) ||
        containsStr (strLower team_name) (strLower p.1)) with
  | none => res1
  | some p =>
    if p.2.reliability < 75 ∧ r.reliabilityRoll < 1/10 then
      if res1.incident = RaceIncident.NONE ∧ r.mechRoll < 3/10 then
        { res1 with
          incident := RaceIncident.MECHANICAL_FAILURE,
          incident_description := "Real data suggests reliability concerns",
          status := "DNF",
          finishing_position := numResults }
      else res1
    else res1

/-- The adjusted result list after the per-result loop of
`_apply_real_data_race_adjustments`, one random bundle per record in
iteration order. -/
def adjustedResults (realDriverData : String → Option RealDriverStats)
    (abbrevOf : String → String)
    (realTeamData : List (String × RealTeamStats))
    (cleanTeamName : String → String)
    (rng : Nat → AdjustRng) (results : List DriverRaceResult) :
    List DriverRaceResult :=
  results.enum.map (fun p =>
    adjustResult realDriverData abbrevOf realTeamData cleanTeamName
      results.length (rng p.1) p.2)

/-- `EnhancedRaceSimulator._apply_real_data_race_adjustments`
(`advanced_race_model.py` lines 135-205): adjust every record, then keep
the records whose status is "Finished" (stable-sorted by (position, time)
and renumbered 1..F) followed by the records whose status is "DNF"
(renumbered F+1.. in their prior order). Records with any other status
(i.e. "DSQ") appear in neither filter and are dropped. -/
def applyRealDataRaceAdjustments (realDriverData : String → Option RealDriverStats)
    (abbrevOf : String → String)
    (realTeamData : List (String × RealTeamStats))
    (cleanTeamName : String → String)
    (rng : Nat → AdjustRng) (results : List DriverRaceResult) :
    List DriverRaceResult :=
  let adjusted := adjustedResults realDriverData abbrevOf realTeamData
    cleanTeamName rng results
  let finished_results := adjusted.filter (fun r => r.status == "Finished")
  let dnf_results := adjusted.filter (fun r => r.status == "DNF")
  let finishedSorted := finished_results.insertionSort (fun a b =>
    a.finishing_position < b.finishing_position ∨
      (a.finishing_position = b.finishing_position ∧ a.time ≤ b.time))
  let finishedRanked := finishedSorted.enum.map (fun p =>
    { p.2 with finishing_position := p.1 + 1 })
  let dnfRanked := dnf_results.enum.map (fun p =>
    { p.2 with finishing_position := finishedSorted.length + p.1 + 1 })
  finishedRanked ++ dnfRanked

/-- Empty external driver statistics (no enhanced data available). -/
def emptyDriverData : String → Option RealDriverStats := fun _ => none

/-- Identity name normalization, standing in for the external
abbreviation/cleaning helpers in concrete instantiations. -/
def idName : String → String := fun s => s

/-- External team statistics marking `teamB` ("TB") as low-reliability. -/
def lowRelTeamData : List (String × RealTeamStats) :=
  [("TB", { reliability := 50 })]

/-- Adjustment draws under which no adjustment fires. -/
def noAdjustRng : Nat → AdjustRng := fun _ =>
  { boostOccur := 1, boostChoiceIx := 0, consistencyRoll := 1, incidentChoiceIx := 0,
    reliabilityRoll := 1, mechRoll := 1 }

/-- Adjustment draws under which the reliability-based mechanical failure
fires for every matched team. -/
def fireAdjustRng : Nat → AdjustRng := fun _ =>
  { boostOccur := 1, boostChoiceIx := 0, consistencyRoll := 1, incidentChoiceIx := 0,
    reliabilityRoll := 0, mechRoll := 0 }

/-- The qualifying lap-time formula exactly as the spec states it (C8,
§4.1): base `90 + (length_km − 5) × 5` seconds, a driver factor
`5 × (1 − overall/100)`, a car factor `3 × (1 − car/100)`, the
track-specialization jitter, a weather penalty `2 × (1 − wet/100)` when
wet else `0.5 × (1 − dry/100)`, and the uniform jitter. Written from the
spec's words, to be compared against `qualifyingLapTime` from the source. -/
def specQualifyingLapTime (track : Track) (w : Weather) (d : Driver) (t : Team)
    (r : QualRng) : ℚ :=
  (90 + (track.length_km - 5) * 5)
    + 5 * (1 - d.get_overall_rating / 100)
    + 3 * (1 - t.get_car_rating / 100)
    + r.trackSpec
    + (if w.is_wet then 2 * (1 - d.skill_wet / 100) else (1/2) * (1 - d.skill_dry / 100))
    + r.randFactor

/-- The representative qualifying time as the spec states it: the minimum
of the three lap attempts under independent multiplicative jitter. -/
def specQualifyingBestTime (track : Track) (w : Weather) (d : Driver) (t : Team)
    (r : QualRng) : ℚ :=
  min (min (specQualifyingLapTime track w d t r * r.j1)
      (specQualifyingLapTime track w d t r * r.j2))
    (specQualifyingLapTime track w d t r * r.j3)

/-! ### Concrete fixtures used by witness and counterexample theorems -/

/-- A concrete high-rated constructor. -/
def teamA : Team :=
  { name := "TA", performance := 100, reliability := 100, pit_efficiency := 100,
    development_rate := 100, aerodynamics := 100, power := 100 }

/-- A concrete mid-rated constructor. -/
def teamB : Team :=
  { name := "TB", performance := 50, reliability := 50, pit_efficiency := 50,
    development_rate := 50, aerodynamics := 50, power := 50 }

/-- A concrete driver entered for `teamA`. -/
def driverA : Driver :=
  { name := "A", team := "TA", experience := 10, skill_wet := 100, skill_dry := 100,
    skill_overtaking := 100, consistency := 100, aggression := 0 }

/-- A concrete driver entered for `teamB`. -/
def driverB : Driver :=
  { name := "B", team := "TB", experience := 10, skill_wet := 50, skill_dry := 50,
    skill_overtaking := 50, consistency := 50, aggression := 50 }

/-- A concrete driver whose team string matches no constructor. -/
def driverC : Driver :=
  { name := "C", team := "TC", experience := 10, skill_wet := 50, skill_dry := 50,
    skill_overtaking := 50, consistency := 50, aggression := 50 }

/-- Concrete dry weather. -/
def dryWeather : Weather := { condition := "dry", rain_intensity := 0 }

/-- A short concrete circuit (two laps). -/
def sampleTrack : Track := { length_km := 5, laps := 2, tyre_wear := 0 }

/-- Race-lap draws under which no incident can fire (the occurrence draw
is 1, above the capped chance). -/
def cleanLapRng : LapRng :=
  { paceRand := 0, lapVar := 0, incOccur := 1, incRoll := 0, pitCoin := 0, descIx := 0 }

/-- Race-lap draws that retire the driver with a penalty (occurrence draw
0, classification roll in the pit/penalty band, pit coin on penalty). -/
def penaltyLapRng : LapRng :=
  { paceRand := 0, lapVar := 0, incOccur := 0, incRoll := 95/100, pitCoin := 1, descIx := 0 }

/-- A race randomness oracle: clean laps for everyone except `driverB` on
lap 2, who retires with a penalty. -/
def samplePenaltyRng : Nat → Driver → LapRng := fun lap d =>
  if d.name = "B" ∧ lap = 2 then penaltyLapRng else cleanLapRng

/-- A race randomness oracle with only clean laps. -/
def cleanRaceRng : Nat → Driver → LapRng := fun _ _ => cleanLapRng

/-- A one-lap concrete circuit, used to race a full ten-driver field. -/
def sprintTrack : Track := { length_km := 5, laps := 1, tyre_wear := 0 }

/-- A uniformly skilled driver entered for `teamA`, used to build a
ten-driver field. -/
def mkSampleDriver (nm : String) : Driver :=
  { name := nm, team := "TA", experience := 10, skill_wet := 100, skill_dry := 100,
    skill_overtaking := 100, consistency := 100, aggression := 0 }

/-- Ten distinct competitors, all entered for `teamA`. -/
def tenDrivers : List Driver :=
  ["D0", "D1", "D2", "D3", "D4", "D5", "D6", "D7", "D8", "D9"].map mkSampleDriver

/-- A base result: `driverA` finished first for `teamB`, scoring 25. -/
def baseResultFin : DriverRaceResult :=
  { driver := driverA, team := teamB, starting_position := 1, finishing_position := 1,
    time := 100, status := "Finished", fastest_lap := false,
    incident := RaceIncident.NONE, incident_description := "", points := 25 }

/-- A base result: `driverB` disqualified (status "DSQ") for `teamA`. -/
def baseResultDsq : DriverRaceResult :=
  { driver := driverB, team := teamA, starting_position := 2, finishing_position := 2,
    time := 90, status := "DSQ", fastest_lap := false,
    incident := RaceIncident.PENALTY,
    incident_description := "Disqualification for B", points := 0 }

/-- Jitter-free qualifying draws. -/
def zeroQualRng : QualRng := { trackSpec := 0, randFactor := 0, j1 := 1, j2 := 1, j3 := 1 }

/-- A qualifying randomness oracle with jitter-free draws. -/
def cleanQualRng : Nat → QualRng := fun _ => zeroQualRng

/-- The final per-driver state used by the C5 witness: `driverB` retired
with a penalty, everyone else still active. -/
def sampleFinalDs : Driver → DriverRaceState := fun d =>
  if d = driverB then
    { active := false, incident := RaceIncident.PENALTY,
      description := "Disqualification for B", current_position := 2 }
  else
    { active := true, incident := RaceIncident.NONE, description := "",
      current_position := 1 }

/-- Cumulative times used by the C5 witness. -/
def sampleFinalTime : Driver → ℚ := fun d => if d = driverB then 150 else 180

/-- **C1.** For every combination of driver attributes, team attributes,
weather condition, lap number, and total laps, the per-lap incident
probability computed by the incident model (the composed product of the
base chance with the consistency, reliability, weather, first-lap,
late-race, rookie, and aggression multipliers, as capped by the model)
never exceeds 0.15. -/
theorem incidentChance_le_cap (w : Weather) (driver : Driver) (team : Team)
    (lap totalLaps : Nat) :
    incidentChance w driver team lap totalLaps ≤ 15/100 :=
  min_le_right _ _

/-! ### Qualifying: permutation and abort behaviour -/

theorem qualifyingPerformances_map_fst (track : Track) (w : Weather)
    (teams : List Team) (rng : Nat → QualRng) :
    ∀ {i : Nat} {l : List Driver} {perfs : List (Driver × ℚ)},
    qualifyingPerformances track w teams rng i l = some perfs →
    perfs.map Prod.fst = l := by
  intro i l
  induction l generalizing i with
  | nil =>
    intro perfs h
    simp only [qualifyingPerformances] at h
    cases h
    simp
  | cons d rest ih =>
    intro perfs h
    simp only [qualifyingPerformances, bind, Option.bind] at h
    cases hd : driverTeams teams d with
    | none => rw [hd] at h; cases h
    | some t =>
      rw [hd] at h
      cases hr : qualifyingPerformances track w teams rng (i + 1) rest with
      | none => rw [hr] at h; cases h
      | some rs =>
        rw [hr] at h
        cases h
        simpa using ih hr

theorem qualifyingPerformances_isSome (track : Track) (w : Weather)
    (teams : List Team) (rng : Nat → QualRng) :
    ∀ {i : Nat} {l : List Driver},
    (∀ d ∈ l, (driverTeams teams d).isSome) →
    ∃ perfs, qualifyingPerformances track w teams rng i l = some perfs := by
  intro i l
  induction l generalizing i with
  | nil => intro _; exact ⟨[], rfl⟩
  | cons d rest ih =>
    intro h
    obtain ⟨t, ht⟩ := Option.isSome_iff_exists.mp (h d (List.mem_cons_self d rest))
    obtain ⟨rs, hrs⟩ := ih (i := i + 1) (fun x hx => h x (List.mem_cons_of_mem d hx))
    exact ⟨(d, qualifyingBestTime track w d t (rng i)) :: rs,
      by simp [qualifyingPerformances, ht, hrs, bind, Option.bind]⟩

theorem qualifyingPerformances_none (track : Track) (w : Weather)
    (teams : List Team) (rng : Nat → QualRng) {d : Driver} :
    ∀ {i : Nat} {l : List Driver}, d ∈ l → driverTeams teams d = none →
    qualifyingPerformances track w teams rng i l = none := by
  intro i l
  induction l generalizing i with
  | nil => intro h; cases h
  | cons x rest ih =>
    intro hmem hnone
    rcases List.mem_cons.mp hmem with rfl | hmem
    · simp [qualifyingPerformances, hnone, bind, Option.bind]
    · cases hx : driverTeams teams x with
      | none => simp [qualifyingPerformances, hx, bind, Option.bind]
      | some t => simp [qualifyingPerformances, hx, ih hmem hnone, bind, Option.bind]

/-- **C4.** For every input list of competitors in which each
competitor's team name matches some constructor's name, the grid returned
by the qualifying simulation is a permutation of the input competitors —
every input competitor appears exactly once, none missing — for any
outcome of the random draws. -/
theorem simulateQualifying_permutation (track : Track) (w : Weather)
    (teams : List Team) (rng : Nat → QualRng) (drivers : List Driver)
    (h : ∀ d ∈ drivers, ∃ t ∈ teams, d.team = t.name) :
    ∃ grid, simulateQualifying track w teams rng drivers = some grid ∧
      grid.Perm drivers := by
  have hs : ∀ d ∈ drivers, (driverTeams teams d).isSome := by
    intro d hd
    rcases h d hd with ⟨t, ht, he⟩
    rw [driverTeams, List.find?_isSome]
    exact ⟨t, ht, by simp [he]⟩
  obtain ⟨perfs, hp⟩ := qualifyingPerformances_isSome track w teams rng (i := 0) hs
  refine ⟨(perfs.insertionSort (fun a b => a.2 ≤ b.2)).map Prod.fst,
    by simp [simulateQualifying, hp, bind, Option.bind], ?_⟩
  have hperm : List.Perm
      ((perfs.insertionSort (fun a b => a.2 ≤ b.2)).map Prod.fst)
      (perfs.map Prod.fst) := (List.perm_insertionSort _ perfs).map Prod.fst
  rwa [qualifyingPerformances_map_fst track w teams rng hp] at hperm

/-- Witness for C4 at a concrete two-driver field. -/
theorem simulateQualifying_permutation_witness :
    (∀ d ∈ [driverB, driverA], ∃ t ∈ [teamA, teamB], d.team = t.name) ∧
    ∃ grid,
      simulateQualifying sampleTrack dryWeather [teamA, teamB] cleanQualRng
        [driverB, driverA] = some grid ∧
      grid.Perm [driverB, driverA] :=
  ⟨by decide,
   simulateQualifying_permutation sampleTrack dryWeather [teamA, teamB]
     cleanQualRng [driverB, driverA] (by decide)⟩

theorem compileFrom_none (teams : List Team) (grid : List Driver)
    (ds : Driver → DriverRaceState) (time : Driver → ℚ)
    (fd : Option Driver) {d : Driver} :
    ∀ {pos : Nat} {l : List Driver}, d ∈ l → driverTeams teams d = none →
    compileFrom teams grid ds time fd pos l = none := by
  intro pos l
  induction l generalizing pos with
  | nil => intro h; cases h
  | cons x rest ih =>
    intro hmem hnone
    rcases List.mem_cons.mp hmem with rfl | hmem
    · simp [compileFrom, hnone, bind, Option.bind]
    · cases hx : driverTeams teams x with
      | none => simp [compileFrom, hx, bind, Option.bind]
      | some t => simp [compileFrom, hx, ih hmem hnone, bind, Option.bind]

theorem foldlM_option_none {α β : Type} {f : β → α → Option β} {a : α}
    (hf : ∀ st, f st a = none) :
    ∀ {l : List α} {st : β}, a ∈ l → l.foldlM f st = none := by
  intro l
  induction l with
  | nil => intro st h; cases h
  | cons x rest ih =>
    intro st hmem
    rcases List.mem_cons.mp hmem with rfl | hmem
    · simp [List.foldlM_cons, hf st, bind, Option.bind]
    · cases hx : f st x with
      | none => simp [List.foldlM_cons, hx, bind, Option.bind]
      | some st1 => simp [List.foldlM_cons, hx, ih hmem, bind, Option.bind]

theorem initDriverState_filter_active (grid : List Driver) :
    grid.filter (fun d => (initDriverState grid d).active) = grid := by
  simp [initDriverState]

theorem driverLapStep_none (track : Track) (w : Weather) (teams : List Team)
    (rng : Nat → Driver → LapRng) (lap totalLaps : Nat) {d : Driver}
    (hnone : driverTeams teams d = none) (st : RaceState) :
    driverLapStep track w teams rng lap totalLaps st d = none := by
  simp [driverLapStep, hnone, bind, Option.bind]

theorem simulateRace_none_of_unmatched (track : Track) (w : Weather)
    (teams : List Team) (rng : Nat → Driver → LapRng) (grid : List Driver)
    {d : Driver} (hmem : d ∈ grid) (hnone : driverTeams teams d = none) :
    simulateRace track w teams rng grid = none := by
  cases hlaps : track.laps with
  | zero =>
    have hcomp : compileResults teams grid (initDriverState grid) (fun _ => 0) none = none := by
      have hmem2 : d ∈ (grid.filter (fun x => (initDriverState grid x).active)).insertionSort
          (fun a b => (0 : ℚ) ≤ 0) := by
        rw [List.mem_insertionSort, initDriverState_filter_active]
        exact hmem
      rw [compileResults]
      exact compileFrom_none teams grid _ _ _
        (List.mem_append_left _ (by simpa using hmem2)) hnone
    simp [simulateRace, hlaps, bind, Option.bind, hcomp]
  | succ n =>
    have hrange : List.range' 1 (n + 1) = 1 :: List.range' 2 n := by
      simp [List.range'_succ]
    have hstep : lapStep track w teams rng grid (n + 1)
        { ds := initDriverState grid, time := fun _ => 0, fastest := none } 1 = none := by
      rw [lapStep]
      have : (grid.filter fun x =>
          ((initDriverState grid x)).active).foldlM
          (driverLapStep track w teams rng 1 (n + 1))
          { ds := initDriverState grid, time := fun _ => 0, fastest := none } = none := by
        apply foldlM_option_none
          (fun st => driverLapStep_none track w teams rng 1 (n + 1) hnone st)
        rw [initDriverState_filter_active]
        exact hmem
      simp [this, bind, Option.bind]
    simp [simulateRace, hlaps, hrange, List.foldlM_cons, hstep, bind, Option.bind]

/-- **C9.** For every input where some competitor's team name matches no
constructor's name, the engine fails fast (the unmatched dictionary
lookup aborts the run, modelled as `none`): qualifying produces no grid,
the race produces no result list — whether the grid comes from qualifying
or the full input field is raced directly — so the competitor is never
silently dropped from a grid or result list. -/
theorem unmatched_team_aborts (track : Track) (w : Weather) (teams : List Team)
    (rngQ : Nat → QualRng) (rngR : Nat → Driver → LapRng) (drivers : List Driver)
    (h : ∃ d ∈ drivers, ∀ t ∈ teams, d.team ≠ t.name) :
    simulateQualifying track w teams rngQ drivers = none ∧
    simulateRaceAuto track w teams rngQ rngR drivers = none ∧
    simulateRace track w teams rngR drivers = none := by
  obtain ⟨d, hmem, hno⟩ := h
  have hnone : driverTeams teams d = none := by
    rw [driverTeams, List.find?_eq_none]
    intro t ht
    simp [hno t ht]
  have hq : simulateQualifying track w teams rngQ drivers = none := by
    simp [simulateQualifying, qualifyingPerformances_none track w teams rngQ hmem hnone,
      bind, Option.bind]
  exact ⟨hq, by simp [simulateRaceAuto, hq, bind, Option.bind],
    simulateRace_none_of_unmatched track w teams rngR drivers hmem hnone⟩

/-- Witness for C9: a concrete field containing `driverC`, whose team
"TC" matches no constructor. -/
theorem unmatched_team_aborts_witness :
    (∃ d ∈ [driverA, driverC], ∀ t ∈ [teamA, teamB], d.team ≠ t.name) ∧
    (simulateQualifying sampleTrack dryWeather [teamA, teamB] cleanQualRng
        [driverA, driverC] = none ∧
      simulateRaceAuto sampleTrack dryWeather [teamA, teamB] cleanQualRng
        cleanRaceRng [driverA, driverC] = none ∧
      simulateRace sampleTrack dryWeather [teamA, teamB] cleanRaceRng
        [driverA, driverC] = none) :=
  ⟨by decide,
   unmatched_team_aborts sampleTrack dryWeather [teamA, teamB] cleanQualRng
     cleanRaceRng [driverA, driverC] (by decide)⟩

/-! ### Result-compiler analysis -/

theorem mkResult_driver (grid : List Driver) (ds : Driver → DriverRaceState)
    (time : Driver → ℚ) (fd : Option Driver) (pos : Nat) (d : Driver) (t : Team) :
    (mkResult grid ds time fd pos d t).driver = d := rfl

theorem mkResult_status (grid : List Driver) (ds : Driver → DriverRaceState)
    (time : Driver → ℚ) (fd : Option Driver) (pos : Nat) (d : Driver) (t : Team) :
    (mkResult grid ds time fd pos d t).status = statusOf (ds d) := rfl

theorem mkResult_time (grid : List Driver) (ds : Driver → DriverRaceState)
    (time : Driver → ℚ) (fd : Option Driver) (pos : Nat) (d : Driver) (t : Team) :
    (mkResult grid ds time fd pos d t).time = time d := rfl

theorem mkResult_position (grid : List Driver) (ds : Driver → DriverRaceState)
    (time : Driver → ℚ) (fd : Option Driver) (pos : Nat) (d : Driver) (t : Team) :
    (mkResult grid ds time fd pos d t).finishing_position = pos := rfl

theorem mkResult_flag (grid : List Driver) (ds : Driver → DriverRaceState)
    (time : Driver → ℚ) (fd : Option Driver) (pos : Nat) (d : Driver) (t : Team) :
    (mkResult grid ds time fd pos d t).fastest_lap = decide (fd = some d) := rfl

theorem mkResult_incident (grid : List Driver) (ds : Driver → DriverRaceState)
    (time : Driver → ℚ) (fd : Option Driver) (pos : Nat) (d : Driver) (t : Team) :
    (mkResult grid ds time fd pos d t).incident = (ds d).incident := rfl

theorem statusOf_eq_finished_iff (st : DriverRaceState) :
    statusOf st = "Finished" ↔ st.active = true := by
  cases h : st.active with
  | true => simp [statusOf, h]
  | false =>
    simp only [statusOf, h, Bool.false_eq_true, if_false]
    constructor
    · intro heq
      by_cases hp : st.incident = RaceIncident.PENALTY
      · rw [if_pos hp] at heq; exact absurd heq (by decide)
      · rw [if_neg hp] at heq; exact absurd heq (by decide)
    · intro hfalse; exact absurd hfalse (by decide)

theorem compileFrom_eq (teams : List Team) (grid : List Driver)
    (ds : Driver → DriverRaceState) (time : Driver → ℚ) (fd : Option Driver) :
    ∀ {pos : Nat} {l : List Driver} {out : List DriverRaceResult},
    compileFrom teams grid ds time fd pos l = some out →
    out.length = l.length ∧
    ∀ i (hi : i < l.length) (ho : i < out.length),
      ∃ t, driverTeams teams (l.get ⟨i, hi⟩) = some t ∧
        out.get ⟨i, ho⟩ = mkResult grid ds time fd (pos + i) (l.get ⟨i, hi⟩) t := by
  intro pos l
  induction l generalizing pos with
  | nil =>
    intro out h
    simp only [compileFrom] at h
    cases h
    exact ⟨rfl, fun i hi => absurd hi (by simp)⟩
  | cons d rest ih =>
    intro out h
    simp only [compileFrom, bind, Option.bind] at h
    cases hd : driverTeams teams d with
    | none => rw [hd] at h; cases h
    | some t =>
      rw [hd] at h
      cases hr : compileFrom teams grid ds time fd (pos + 1) rest with
      | none => rw [hr] at h; cases h
      | some rs =>
        rw [hr] at h
        cases h
        obtain ⟨hlen, hidx⟩ := ih hr
        refine ⟨by simp [hlen], ?_⟩
        intro i hi ho
        cases i with
        | zero => exact ⟨t, hd, by simp⟩
        | succ j =>
          obtain ⟨t2, ht2, heq⟩ := hidx j (by simpa using hi) (by simpa using ho)
          refine ⟨t2, by simpa using ht2, ?_⟩
          simpa [Nat.add_comm, Nat.add_assoc, Nat.add_left_comm] using heq

theorem compileFrom_mem (teams : List Team) (grid : List Driver)
    (ds : Driver → DriverRaceState) (time : Driver → ℚ) (fd : Option Driver)
    {pos : Nat} {l : List Driver} {out : List DriverRaceResult}
    (h : compileFrom teams grid ds time fd pos l = some out) :
    ∀ r ∈ out, ∃ p d t, d ∈ l ∧ driverTeams teams d = some t ∧
      r = mkResult grid ds time fd p d t := by
  intro r hr
  obtain ⟨⟨i, ho⟩, hget⟩ := List.mem_iff_get.mp hr
  obtain ⟨hlen, hidx⟩ := compileFrom_eq teams grid ds time fd h
  obtain ⟨t, ht, heq⟩ := hidx i (hlen ▸ ho) ho
  exact ⟨pos + i, l.get ⟨i, hlen ▸ ho⟩, t, List.get_mem l i (hlen ▸ ho), ht, hget ▸ heq⟩

theorem compileFrom_countP_flag (teams : List Team) (grid : List Driver)
    (ds : Driver → DriverRaceState) (time : Driver → ℚ) (fd : Option Driver) :
    ∀ {pos : Nat} {l : List Driver} {out : List DriverRaceResult},
    compileFrom teams grid ds time fd pos l = some out →
    out.countP (fun r => r.fastest_lap) = l.countP (fun d => decide (fd = some d)) := by
  intro pos l
  induction l generalizing pos with
  | nil => intro out h; simp only [compileFrom] at h; cases h; simp
  | cons d rest ih =>
    intro out h
    simp only [compileFrom, bind, Option.bind] at h
    cases hd : driverTeams teams d with
    | none => rw [hd] at h; cases h
    | some t =>
      rw [hd] at h
      cases hr : compileFrom teams grid ds time fd (pos + 1) rest with
      | none => rw [hr] at h; cases h
      | some rs =>
        rw [hr] at h
        cases h
        simp [List.countP_cons, ih hr, mkResult_flag]

theorem compileFrom_pairwise {P : DriverRaceResult → DriverRaceResult → Prop}
    {Q : Driver → Driver → Prop} (teams : List Team) (grid : List Driver)
    (ds : Driver → DriverRaceState) (time : Driver → ℚ) (fd : Option Driver)
    (hPQ : ∀ pos1 pos2 d1 d2 t1 t2, Q d1 d2 →
      P (mkResult grid ds time fd pos1 d1 t1) (mkResult grid ds time fd pos2 d2 t2)) :
    ∀ {pos : Nat} {l : List Driver} {out : List DriverRaceResult},
    compileFrom teams grid ds time fd pos l = some out →
    List.Pairwise Q l → List.Pairwise P out := by
  intro pos l
  induction l generalizing pos with
  | nil => intro out h _; simp only [compileFrom] at h; cases h; exact List.Pairwise.nil
  | cons d rest ih =>
    intro out h hq
    simp only [compileFrom, bind, Option.bind] at h
    cases hd : driverTeams teams d with
    | none => rw [hd] at h; cases h
    | some t =>
      rw [hd] at h
      cases hr : compileFrom teams grid ds time fd (pos + 1) rest with
      | none => rw [hr] at h; cases h
      | some rs =>
        rw [hr] at h
        cases h
        refine List.Pairwise.cons ?_ (ih hr hq.of_cons)
        intro r2 hr2
        obtain ⟨p2, d2, t2, hd2mem, _, rfl⟩ :=
          compileFrom_mem teams grid ds time fd hr r2 hr2
        exact hPQ _ _ _ _ _ _ (List.rel_of_pairwise_cons hq hd2mem)

/-- **C5.** In every compiled result, a competitor still active at race
end receives status "Finished"; a competitor retired by a
penalty/disqualification-category incident receives status "DSQ"
(Disqualified); every other retired competitor receives status "DNF"
(Did Not Finish); the record carries the retiring incident, so penalty
incidents are always distinguishable from other retirements by status. -/
theorem compileResults_status_resolution (teams : List Team) (grid : List Driver)
    (ds : Driver → DriverRaceState) (time : Driver → ℚ) (fd : Option Driver)
    (results : List DriverRaceResult)
    (h : compileResults teams grid ds time fd = some results) :
    ∀ r ∈ results,
      r.incident = (ds r.driver).incident ∧
      ((ds r.driver).active = true → r.status = "Finished") ∧
      ((ds r.driver).active = false → (ds r.driver).incident = RaceIncident.PENALTY →
        r.status = "DSQ") ∧
      ((ds r.driver).active = false → (ds r.driver).incident ≠ RaceIncident.PENALTY →
        r.status = "DNF") := by
  intro r hr
  rw [compileResults] at h
  obtain ⟨p, d, t, _, _, rfl⟩ := compileFrom_mem teams grid ds time fd h r hr
  rw [mkResult_driver, mkResult_incident, mkResult_status]
  refine ⟨rfl, fun ha => ?_, fun ha hp => ?_, fun ha hp => ?_⟩
  · simp [statusOf, ha]
  · simp [statusOf, ha, hp]
  · simp [statusOf, ha, hp]

/-- Witness for C5 at a concrete compiled state (driverB disqualified). -/
theorem compileResults_status_resolution_witness :
    compileResults [teamA, teamB] [driverA, driverB] sampleFinalDs sampleFinalTime
        (some driverA) =
      some ((compileResults [teamA, teamB] [driverA, driverB] sampleFinalDs
        sampleFinalTime (some driverA)).getD []) ∧
    ∀ r ∈ (compileResults [teamA, teamB] [driverA, driverB] sampleFinalDs
        sampleFinalTime (some driverA)).getD [],
      r.incident = (sampleFinalDs r.driver).incident ∧
      ((sampleFinalDs r.driver).active = true → r.status = "Finished") ∧
      ((sampleFinalDs r.driver).active = false →
        (sampleFinalDs r.driver).incident = RaceIncident.PENALTY → r.status = "DSQ") ∧
      ((sampleFinalDs r.driver).active = false →
        (sampleFinalDs r.driver).incident ≠ RaceIncident.PENALTY → r.status = "DNF") :=
  ⟨by decide,
   compileResults_status_resolution [teamA, teamB] [driverA, driverB] sampleFinalDs
     sampleFinalTime (some driverA) _ (by decide)⟩

/-! ### Ordering of compiled results (C2) -/

theorem sorted_insertionSort_of {α : Type} (r : α → α → Prop) [DecidableRel r]
    (total : ∀ a b, r a b ∨ r b a) (trans : ∀ a b c, r a b → r b c → r a c)
    (l : List α) : List.Pairwise r (List.insertionSort r l) := by
  letI : IsTotal α r := ⟨total⟩
  letI : IsTrans α r := ⟨fun a b c => trans a b c⟩
  exact List.sorted_insertionSort r l

theorem simulateRace_eq_some {track : Track} {w : Weather} {teams : List Team}
    {rng : Nat → Driver → LapRng} {grid : List Driver}
    {results : List DriverRaceResult}
    (h : simulateRace track w teams rng grid = some results) :
    ∃ final, (List.range' 1 track.laps).foldlM
        (lapStep track w teams rng grid track.laps)
        { ds := initDriverState grid, time := fun _ => 0, fastest := none } = some final ∧
      compileResults teams grid final.ds final.time (final.fastest.map Prod.fst)
        = some results := by
  simp only [simulateRace, bind, Option.bind] at h
  cases hf : (List.range' 1 track.laps).foldlM
      (lapStep track w teams rng grid track.laps)
      { ds := initDriverState grid, time := fun _ => 0, fastest := none } with
  | none => rw [hf] at h; cases h
  | some final => rw [hf] at h; exact ⟨final, rfl, h⟩

theorem compileResults_ordering (teams : List Team) (grid : List Driver)
    (ds : Driver → DriverRaceState) (time : Driver → ℚ) (fd : Option Driver)
    (results : List DriverRaceResult)
    (h : compileResults teams grid ds time fd = some results) :
    List.Pairwise (fun r1 r2 : DriverRaceResult =>
      (r1.status = "Finished" → r2.status = "Finished" → r1.time ≤ r2.time) ∧
      (r2.status = "Finished" → r1.status = "Finished") ∧
      (r1.status ≠ "Finished" → r2.status ≠ "Finished" → r2.time ≤ r1.time)) results := by
  rw [compileResults] at h
  refine compileFrom_pairwise
    (Q := fun d1 d2 =>
      ((ds d1).active = true → (ds d2).active = true → time d1 ≤ time d2) ∧
      ((ds d2).active = true → (ds d1).active = true) ∧
      (¬ (ds d1).active = true → ¬ (ds d2).active = true → time d2 ≤ time d1))
    teams grid ds time fd ?_ h ?_
  · intro pos1 pos2 d1 d2 t1 t2 hq
    simpa [mkResult_status, mkResult_time, statusOf_eq_finished_iff] using hq
  · rw [List.pairwise_append]
    refine ⟨?_, ?_, ?_⟩
    · have hsorted := sorted_insertionSort_of (fun a b => time a ≤ time b)
        (fun a b => le_total _ _) (fun a b c => le_trans)
        (grid.filter (fun d => (ds d).active))
      refine hsorted.imp_of_mem ?_
      intro a b ha hb hle
      rw [List.mem_insertionSort, List.mem_filter] at ha hb
      exact ⟨fun _ _ => hle, fun _ => ha.2, fun hna _ => absurd ha.2 hna⟩
    · have hsorted := sorted_insertionSort_of (fun a b => time b ≤ time a)
        (fun a b => (le_total _ _).symm) (fun a b c h1 h2 => le_trans h2 h1)
        (grid.filter (fun d => !(ds d).active))
      refine hsorted.imp_of_mem ?_
      intro a b ha hb hle
      rw [List.mem_insertionSort, List.mem_filter, Bool.not_eq_true'] at ha hb
      exact ⟨fun h1 _ => absurd h1 (by simp [ha.2]),
        fun h2 => absurd h2 (by simp [hb.2]), fun _ _ => hle⟩
    · intro a ha b hb
      rw [List.mem_insertionSort, List.mem_filter] at ha hb
      rw [Bool.not_eq_true'] at hb
      exact ⟨fun _ h2 => absurd h2 (by simp [hb.2]),
        fun h2 => absurd h2 (by simp [hb.2]),
        fun hna _ => absurd ha.2 hna⟩

/-- **C2.** In every result list produced by the base race simulation, all
"Finished" competitors come first sorted ascending by cumulative race
time, and all non-finishers come after them sorted descending by
cumulative race time (a competitor who retired with more accumulated time
ranks above one who retired with less). -/
theorem simulateRace_ordering (track : Track) (w : Weather) (teams : List Team)
    (rng : Nat → Driver → LapRng) (grid : List Driver)
    (results : List DriverRaceResult)
    (h : simulateRace track w teams rng grid = some results) :
    List.Pairwise (fun r1 r2 : DriverRaceResult =>
      (r1.status = "Finished" → r2.status = "Finished" → r1.time ≤ r2.time) ∧
      (r2.status = "Finished" → r1.status = "Finished") ∧
      (r1.status ≠ "Finished" → r2.status ≠ "Finished" → r2.time ≤ r1.time)) results := by
  obtain ⟨final, _, hcomp⟩ := simulateRace_eq_some h
  exact compileResults_ordering teams grid final.ds final.time
    (final.fastest.map Prod.fst) results hcomp

/-- Witness for C2: a concrete two-driver, two-lap race in which driverB
retires with a penalty on lap 2. -/
theorem simulateRace_ordering_witness :
    simulateRace sampleTrack dryWeather [teamA, teamB] samplePenaltyRng
        [driverA, driverB] =
      some ((simulateRace sampleTrack dryWeather [teamA, teamB] samplePenaltyRng
        [driverA, driverB]).getD []) ∧
    List.Pairwise (fun r1 r2 : DriverRaceResult =>
      (r1.status = "Finished" → r2.status = "Finished" → r1.time ≤ r2.time) ∧
      (r2.status = "Finished" → r1.status = "Finished") ∧
      (r1.status ≠ "Finished" → r2.status ≠ "Finished" → r2.time ≤ r1.time))
      ((simulateRace sampleTrack dryWeather [teamA, teamB] samplePenaltyRng
        [driverA, driverB]).getD []) :=
  ⟨by decide,
   simulateRace_ordering sampleTrack dryWeather [teamA, teamB] samplePenaltyRng
     [driverA, driverB] _ (by decide)⟩

/-! ### Points assignment (C3) -/

theorem mkResult_points (grid : List Driver) (ds : Driver → DriverRaceState)
    (time : Driver → ℚ) (fd : Option Driver) (pos : Nat) (d : Driver) (t : Team) :
    (mkResult grid ds time fd pos d t).points =
      if (mkResult grid ds time fd pos d t).status = "Finished" ∧
          (mkResult grid ds time fd pos d t).finishing_position ≤ 10 then
        points_system.getD ((mkResult grid ds time fd pos d t).finishing_position - 1) 0
          + (if (mkResult grid ds time fd pos d t).fastest_lap = true then 1 else 0)
      else 0 := by
  rw [mkResult_status, mkResult_position, mkResult_flag]
  by_cases hs : statusOf (ds d) = "Finished" <;> by_cases hp : pos ≤ 10 <;>
    by_cases hf : fd = some d <;>
      simp [mkResult, points_system, hs, hp, hf]

theorem compileFrom_countP {teams : List Team} {grid : List Driver}
    {ds : Driver → DriverRaceState} {time : Driver → ℚ} {fd : Option Driver}
    {p : DriverRaceResult → Bool} {q : Driver → Bool}
    (hpq : ∀ pos d t, p (mkResult grid ds time fd pos d t) = q d) :
    ∀ {pos : Nat} {l : List Driver} {out : List DriverRaceResult},
    compileFrom teams grid ds time fd pos l = some out →
    out.countP p = l.countP q := by
  intro pos l
  induction l generalizing pos with
  | nil => intro out h; simp only [compileFrom] at h; cases h; simp
  | cons d rest ih =>
    intro out h
    simp only [compileFrom, bind, Option.bind] at h
    cases hd : driverTeams teams d with
    | none => rw [hd] at h; cases h
    | some t =>
      rw [hd] at h
      cases hr : compileFrom teams grid ds time fd (pos + 1) rest with
      | none => rw [hr] at h; cases h
      | some rs =>
        rw [hr] at h
        cases h
        simp [List.countP_cons, ih hr, hpq]

theorem compileResults_index (teams : List Team) (grid : List Driver)
    (ds : Driver → DriverRaceState) (time : Driver → ℚ) (fd : Option Driver)
    (results : List DriverRaceResult)
    (h : compileResults teams grid ds time fd = some results) :
    results.length = (grid.filter (fun d => (ds d).active)).length +
      (grid.filter (fun d => !(ds d).active)).length ∧
    ∀ i (ho : i < results.length),
      (results.get ⟨i, ho⟩).finishing_position = 1 + i ∧
      ((results.get ⟨i, ho⟩).status = "Finished" ↔
        i < (grid.filter (fun d => (ds d).active)).length) := by
  rw [compileResults] at h
  obtain ⟨hlen, hidx⟩ := compileFrom_eq teams grid ds time fd h
  rw [List.length_append, List.length_insertionSort, List.length_insertionSort] at hlen
  refine ⟨hlen, ?_⟩
  intro i ho
  have hiL : i < ((grid.filter (fun d => (ds d).active)).insertionSort
      (fun a b => time a ≤ time b) ++
      (grid.filter (fun d => !(ds d).active)).insertionSort
      (fun a b => time b ≤ time a)).length := by
    simpa [List.length_append, List.length_insertionSort] using hlen ▸ ho
  obtain ⟨t, _, heq⟩ := hidx i hiL ho
  rw [heq, mkResult_position, mkResult_status]
  refine ⟨rfl, ?_⟩
  rw [statusOf_eq_finished_iff]
  constructor
  · intro hactive
    by_contra hge
    push_neg at hge
    have hge2 : (((grid.filter (fun d => (ds d).active)).insertionSort
        (fun a b => time a ≤ time b))).length ≤ i := by
      simpa [List.length_insertionSort] using hge
    have hmem : (((grid.filter (fun d => (ds d).active)).insertionSort
        (fun a b => time a ≤ time b) ++
        (grid.filter (fun d => !(ds d).active)).insertionSort
        (fun a b => time b ≤ time a))).get ⟨i, hiL⟩ ∈
        (grid.filter (fun d => !(ds d).active)).insertionSort
          (fun a b => time b ≤ time a) := by
      have hbound : i - ((grid.filter (fun d => (ds d).active)).insertionSort
          (fun a b => time a ≤ time b)).length <
          ((grid.filter (fun d => !(ds d).active)).insertionSort
            (fun a b => time b ≤ time a)).length := by
        simp only [List.length_insertionSort, List.length_append] at hiL hge2 ⊢
        omega
      rw [List.get_append_right _ _ hge2]
      exact List.get_mem _ _ hbound
    rw [List.mem_insertionSort, List.mem_filter, Bool.not_eq_true'] at hmem
    rw [hmem.2] at hactive
    cases hactive
  · intro hlt
    have hlt2 : i < (((grid.filter (fun d => (ds d).active)).insertionSort
        (fun a b => time a ≤ time b))).length := by
      simpa [List.length_insertionSort] using hlt
    have hmem : (((grid.filter (fun d => (ds d).active)).insertionSort
        (fun a b => time a ≤ time b) ++
        (grid.filter (fun d => !(ds d).active)).insertionSort
        (fun a b => time b ≤ time a))).get ⟨i, hiL⟩ ∈
        (grid.filter (fun d => (ds d).active)).insertionSort
          (fun a b => time a ≤ time b) := by
      rw [List.get_append_left _ _ hlt2]
      exact List.get_mem _ _ _
    rw [List.mem_insertionSort, List.mem_filter] at hmem
    exact hmem.2

theorem compileResults_finished_count (teams : List Team) (grid : List Driver)
    (ds : Driver → DriverRaceState) (time : Driver → ℚ) (fd : Option Driver)
    (results : List DriverRaceResult)
    (h : compileResults teams grid ds time fd = some results) :
    (results.filter (fun r => r.status == "Finished")).length =
      (grid.filter (fun d => (ds d).active)).length := by
  rw [compileResults] at h
  have hcount := compileFrom_countP
    (p := fun r => r.status == "Finished") (q := fun d => (ds d).active)
    (fun pos d t => by
      show ((mkResult grid ds time fd pos d t).status == "Finished") = (ds d).active
      rw [mkResult_status]
      cases hact : (ds d).active with
      | true => simp [(statusOf_eq_finished_iff (ds d)).mpr hact]
      | false =>
        have : ¬ statusOf (ds d) = "Finished" := fun hc =>
          by rw [(statusOf_eq_finished_iff (ds d)).mp hc] at hact; cases hact
        simp [this]) h
  rw [← List.countP_eq_length_filter, hcount, List.countP_append]
  have h1 : (((grid.filter (fun d => (ds d).active)).insertionSort
      (fun a b => time a ≤ time b)).countP (fun d => (ds d).active)) =
      ((grid.filter (fun d => (ds d).active)).insertionSort
        (fun a b => time a ≤ time b)).length := by
    rw [List.countP_eq_length]
    intro a ha
    rw [List.mem_insertionSort, List.mem_filter] at ha
    exact ha.2
  have h2 : (((grid.filter (fun d => !(ds d).active)).insertionSort
      (fun a b => time b ≤ time a)).countP (fun d => (ds d).active)) = 0 := by
    rw [List.countP_eq_zero]
    intro a ha
    rw [List.mem_insertionSort, List.mem_filter, Bool.not_eq_true'] at ha
    simp [ha.2]
  rw [h1, h2, List.length_insertionSort]
  omega

/-- **C3 (amended).** In every result list produced by the base race
simulation, a competitor's points are nonzero only if its status is
"Finished" and its finishing position is in 1..10, in which case the
points equal the table [25,18,15,12,10,8,6,4,2,1] indexed by position,
plus exactly one extra point when the competitor holds the fastest-lap
flag and finished at most 10th; consequently, when at least 10
competitors finish, the points awarded for positions 1-10 excluding the
bonus sum to 101 (the table's actual total; the claimed constant 111 is
an arithmetic slip, refuted in `simulateRace_points_sum_counterexample`). -/
theorem simulateRace_points (track : Track) (w : Weather) (teams : List Team)
    (rng : Nat → Driver → LapRng) (grid : List Driver)
    (results : List DriverRaceResult)
    (h : simulateRace track w teams rng grid = some results) :
    (∀ r ∈ results, r.points =
      if r.status = "Finished" ∧ r.finishing_position ≤ 10 then
        points_system.getD (r.finishing_position - 1) 0
          + (if r.fastest_lap = true then 1 else 0)
      else 0) ∧
    (10 ≤ (results.filter (fun r => r.status == "Finished")).length →
      (results.map (fun r =>
        if r.status = "Finished" ∧ r.finishing_position ≤ 10 then
          points_system.getD (r.finishing_position - 1) 0
        else 0)).sum = 101) := by
  obtain ⟨final, _, hcomp⟩ := simulateRace_eq_some h
  constructor
  · intro r hr
    have hcomp2 := hcomp
    rw [compileResults] at hcomp2
    obtain ⟨p, d, t, _, _, rfl⟩ := compileFrom_mem teams grid final.ds final.time
      (final.fastest.map Prod.fst) hcomp2 r hr
    exact mkResult_points grid final.ds final.time (final.fastest.map Prod.fst) p d t
  · intro h10
    have hA := compileResults_finished_count teams grid final.ds final.time
      (final.fastest.map Prod.fst) results hcomp
    obtain ⟨hlen, hidx⟩ := compileResults_index teams grid final.ds final.time
      (final.fastest.map Prod.fst) results hcomp
    rw [hA] at h10
    have hlen10 : 10 ≤ results.length := by omega
    have hG : ∀ i (ho : i < results.length),
        (if (results.get ⟨i, ho⟩).status = "Finished" ∧
            (results.get ⟨i, ho⟩).finishing_position ≤ 10 then
          points_system.getD ((results.get ⟨i, ho⟩).finishing_position - 1) 0
        else 0) = if i < 10 then points_system.getD i 0 else 0 := by
      intro i ho
      obtain ⟨hpos, hstat⟩ := hidx i ho
      by_cases hi : i < 10
      · have hfin : (results.get ⟨i, ho⟩).status = "Finished" := hstat.mpr (by omega)
        rw [if_pos ⟨hfin, by omega⟩, if_pos hi, hpos]
        have h1i : 1 + i - 1 = i := by omega
        rw [h1i]
      · rw [if_neg (fun hc => hi (by omega : i < 10)), if_neg hi]
    have hsplit := List.take_append_drop 10 results
    have hmap : results.map (fun r =>
        if r.status = "Finished" ∧ r.finishing_position ≤ 10 then
          points_system.getD (r.finishing_position - 1) 0
        else 0) =
        (List.range results.length).map
          (fun i => if i < 10 then points_system.getD i 0 else 0) := by
      apply List.ext_get
      · simp
      · intro i h1 h2
        have ho : i < results.length := by simpa using h1
        rw [List.get_map, List.get_map, List.get_range]
        exact hG i ho
    rw [hmap]
    have hrange : List.range results.length =
        List.range 10 ++ (List.range' 10 (results.length - 10)) := by
      rw [List.range_eq_range', List.range_eq_range']
      have h1 := List.range'_append 0 10 (results.length - 10) 1
      norm_num at h1
      rw [h1]
      congr 1
      omega
    rw [hrange, List.map_append, List.sum_append]
    have hsum1 : ((List.range 10).map
        (fun i => if i < 10 then points_system.getD i 0 else 0)).sum = 101 := by decide
    have hsum2 : ((List.range' 10 (results.length - 10)).map
        (fun i => if i < 10 then points_system.getD i 0 else 0)).sum = 0 := by
      apply List.sum_eq_zero
      intro x hx
      rw [List.mem_map] at hx
      obtain ⟨i, hi, rfl⟩ := hx
      rw [List.mem_range'] at hi
      obtain ⟨j, hj, rfl⟩ := hi
      simp
    rw [hsum1, hsum2]

/-- Counterexample for C3 as stated: at a concrete ten-driver race in
which all ten competitors finish, the points awarded for positions 1-10
excluding the bonus sum to 101, not 111 (the table
[25,18,15,12,10,8,6,4,2,1] totals 101; the spec's arithmetic is wrong). -/
theorem simulateRace_points_sum_counterexample :
    10 ≤ (((simulateRace sprintTrack dryWeather [teamA] cleanRaceRng
        tenDrivers).getD []).filter (fun r => r.status == "Finished")).length ∧
    ¬ ((((simulateRace sprintTrack dryWeather [teamA] cleanRaceRng
        tenDrivers).getD []).map (fun r =>
          if r.status = "Finished" ∧ r.finishing_position ≤ 10 then
            points_system.getD (r.finishing_position - 1) 0
          else 0)).sum = 111) := by
  constructor
  · decide
  · decide

/-- Witness for C3 at the concrete two-driver, two-lap race. -/
theorem simulateRace_points_witness :
    simulateRace sampleTrack dryWeather [teamA, teamB] samplePenaltyRng
        [driverA, driverB] =
      some ((simulateRace sampleTrack dryWeather [teamA, teamB] samplePenaltyRng
        [driverA, driverB]).getD []) ∧
    ((∀ r ∈ (simulateRace sampleTrack dryWeather [teamA, teamB] samplePenaltyRng
        [driverA, driverB]).getD [], r.points =
      if r.status = "Finished" ∧ r.finishing_position ≤ 10 then
        points_system.getD (r.finishing_position - 1) 0
          + (if r.fastest_lap = true then 1 else 0)
      else 0) ∧
    (10 ≤ (((simulateRace sampleTrack dryWeather [teamA, teamB] samplePenaltyRng
        [driverA, driverB]).getD []).filter
          (fun r => r.status == "Finished")).length →
      (((simulateRace sampleTrack dryWeather [teamA, teamB] samplePenaltyRng
        [driverA, driverB]).getD []).map (fun r =>
        if r.status = "Finished" ∧ r.finishing_position ≤ 10 then
          points_system.getD (r.finishing_position - 1) 0
        else 0)).sum = 101)) :=
  ⟨by decide,
   simulateRace_points sampleTrack dryWeather [teamA, teamB] samplePenaltyRng
     [driverA, driverB] _ (by decide)⟩

/-! ### Fastest-lap tracking (C10) -/

theorem driverLapStep_fastest (track : Track) (w : Weather) (teams : List Team)
    (rng : Nat → Driver → LapRng) (lap totalLaps : Nat) (st : RaceState)
    (d : Driver) (st' : RaceState)
    (h : driverLapStep track w teams rng lap totalLaps st d = some st') :
    st'.fastest.isSome = true ∧
    ∀ p, st'.fastest = some p → p.1 = d ∨ st.fastest = some p := by
  cases ht : driverTeams teams d with
  | none => rw [driverLapStep, ht] at h; cases h
  | some t =>
    rw [driverLapStep, ht] at h
    rcases hpr : simulateIncidents w d t lap totalLaps (rng lap d) with ⟨inc, desc⟩
    simp only [bind, Option.bind, hpr, Option.some.injEq] at h
    cases hf : st.fastest with
    | none =>
      rw [hf] at h
      cases h
      exact ⟨rfl, fun p hp => Or.inl (by cases hp; rfl)⟩
    | some q =>
      obtain ⟨fd, ft⟩ := q
      rw [hf] at h
      simp only [pure, Option.some.injEq] at h
      by_cases hlt : finalLapTime (calculateRacePace track w d t (rng lap d).paceRand)
          (tireDegradation track lap) (fuelFactor lap)
          (trafficFactor (st.ds d).current_position) (rng lap d).lapVar < ft
      · rw [if_pos hlt] at h
        cases h
        exact ⟨rfl, fun p hp => Or.inl (by cases hp; rfl)⟩
      · rw [if_neg hlt] at h
        cases h
        refine ⟨rfl, fun p hp => Or.inr ?_⟩
        cases hp
        simp [hf]

theorem foldlM_option_pres {α β : Type} {f : β → α → Option β} {P : β → Prop} :
    ∀ {l : List α} {st st' : β},
    (∀ s a, a ∈ l → P s → ∀ s', f s a = some s' → P s') →
    l.foldlM f st = some st' → P st → P st' := by
  intro l
  induction l with
  | nil =>
    intro st st' _ h hp
    simp only [List.foldlM_nil, pure, Option.some.injEq] at h
    cases h
    exact hp
  | cons a rest ih =>
    intro st st' hf h hp
    rw [List.foldlM_cons] at h
    cases ha : f st a with
    | none => rw [ha] at h; cases h
    | some s1 =>
      rw [ha] at h
      exact ih (fun s x hx => hf s x (List.mem_cons_of_mem a hx)) h
        (hf st a (List.mem_cons_self a rest) hp s1 ha)

theorem foldlM_option_estab {α β : Type} {f : β → α → Option β} {Q : β → Prop}
    (hQ : ∀ s a s', f s a = some s' → Q s') :
    ∀ {l : List α} {st st' : β}, l ≠ [] → l.foldlM f st = some st' → Q st' := by
  intro l
  induction l with
  | nil => intro st st' hne; exact absurd rfl hne
  | cons a rest ih =>
    intro st st' _ h
    rw [List.foldlM_cons] at h
    cases ha : f st a with
    | none => rw [ha] at h; cases h
    | some s1 =>
      rw [ha] at h
      cases rest with
      | nil =>
        simp only [List.foldlM_nil, pure, Option.some.injEq] at h
        cases h
        exact hQ st a st' ha
      | cons b rest2 =>
        exact ih (by simp) h

theorem lapStep_fastest (track : Track) (w : Weather) (teams : List Team)
    (rng : Nat → Driver → LapRng) (grid : List Driver) (totalLaps : Nat)
    (st : RaceState) (lap : Nat) (st' : RaceState)
    (h : lapStep track w teams rng grid totalLaps st lap = some st') :
    ((∀ p, st.fastest = some p → p.1 ∈ grid) →
      ∀ p, st'.fastest = some p → p.1 ∈ grid) ∧
    (st.fastest.isSome = true → st'.fastest.isSome = true) ∧
    (grid.filter (fun d => (st.ds d).active) ≠ [] → st'.fastest.isSome = true) := by
  rw [lapStep] at h
  cases hfold : (grid.filter (fun d => (st.ds d).active)).foldlM
      (driverLapStep track w teams rng lap totalLaps) st with
  | none => rw [hfold] at h; cases h
  | some st1 =>
    rw [hfold] at h
    simp only [bind, Option.bind, pure, Option.some.injEq] at h
    have hfast : st'.fastest = st1.fastest := by rw [← h]
    refine ⟨?_, ?_, ?_⟩
    · intro hinv p hp
      rw [hfast] at hp
      refine foldlM_option_pres
        (P := fun s => ∀ p, s.fastest = some p → p.1 ∈ grid)
        ?_ hfold hinv p hp
      intro s a ha hpa s' hs' q hq
      obtain ⟨_, hsrc⟩ := driverLapStep_fastest track w teams rng lap totalLaps s a s' hs'
      rcases hsrc q hq with heq | hold
      · rw [heq]
        exact (List.mem_filter.mp ha).1
      · exact hpa q hold
    · intro hsome
      rw [hfast]
      exact foldlM_option_pres (P := fun s => s.fastest.isSome = true)
        (fun s a _ _ s' hs' =>
          (driverLapStep_fastest track w teams rng lap totalLaps s a s' hs').1)
        hfold hsome
    · intro hne
      rw [hfast]
      exact foldlM_option_estab
        (fun s a s' hs' =>
          (driverLapStep_fastest track w teams rng lap totalLaps s a s' hs').1)
        hne hfold

theorem simulateRace_final_fastest (track : Track) (w : Weather) (teams : List Team)
    (rng : Nat → Driver → LapRng) (grid : List Driver)
    (hne : grid ≠ []) (hlaps : 1 ≤ track.laps) {final : RaceState}
    (h : (List.range' 1 track.laps).foldlM (lapStep track w teams rng grid track.laps)
      { ds := initDriverState grid, time := fun _ => 0, fastest := none } = some final) :
    ∃ fd, final.fastest.map Prod.fst = some fd ∧ fd ∈ grid := by
  obtain ⟨n, hn⟩ : ∃ n, track.laps = n + 1 :=
    ⟨track.laps - 1, by omega⟩
  rw [hn, List.range'_succ, List.foldlM_cons] at h
  cases hstep : lapStep track w teams rng grid track.laps
      { ds := initDriverState grid, time := fun _ => 0, fastest := none } 1 with
  | none => rw [hn] at hstep; rw [hstep] at h; cases h
  | some st1 =>
    rw [hn] at hstep
    rw [hstep] at h
    obtain ⟨hinv1, _, hestab1⟩ := lapStep_fastest track w teams rng grid (n + 1)
      { ds := initDriverState grid, time := fun _ => 0, fastest := none } 1 st1 hstep
    have hsome1 : st1.fastest.isSome = true := by
      apply hestab1
      rw [initDriverState_filter_active]
      exact hne
    have hinv1' : ∀ p, st1.fastest = some p → p.1 ∈ grid := by
      apply hinv1
      intro p hp
      cases hp
    have hfinal : final.fastest.isSome = true ∧
        ∀ p, final.fastest = some p → p.1 ∈ grid := by
      refine foldlM_option_pres
        (P := fun s => s.fastest.isSome = true ∧
          ∀ p, s.fastest = some p → p.1 ∈ grid) ?_ h ⟨hsome1, hinv1'⟩
      intro s a _ hps s' hs'
      obtain ⟨hi, hsm, _⟩ := lapStep_fastest track w teams rng grid (n + 1) s a s' hs'
      exact ⟨hsm hps.1, hi hps.2⟩
    obtain ⟨q, hq⟩ := Option.isSome_iff_exists.mp hfinal.1
    exact ⟨q.1, by rw [hq]; rfl, hfinal.2 q hq⟩

theorem countP_decide_eq_one {α : Type} [DecidableEq α] {l : List α} {a : α}
    (hnd : l.Nodup) (ha : a ∈ l) : l.countP (fun d => decide (a = d)) = 1 := by
  induction l with
  | nil => cases ha
  | cons x rest ih =>
    rw [List.countP_cons]
    rcases List.mem_cons.mp ha with rfl | hmem
    · have hz : rest.countP (fun d => decide (a = d)) = 0 := by
        rw [List.countP_eq_zero]
        intro b hb
        simp only [decide_eq_true_eq]
        intro heq
        exact (List.nodup_cons.mp hnd).1 (heq ▸ hb)
      simp [hz]
    · have hax : a ≠ x := fun heq => (List.nodup_cons.mp hnd).1 (heq ▸ hmem)
      rw [ih (List.nodup_cons.mp hnd).2 hmem]
      simp [hax]

theorem countP_eq_one_unique {α : Type} {p : α → Bool} {l : List α}
    (h : l.countP p = 1) {a b : α} (ha : a ∈ l) (hpa : p a = true)
    (hb : b ∈ l) (hpb : p b = true) : a = b := by
  rw [List.countP_eq_length_filter] at h
  obtain ⟨x, hx⟩ := List.length_eq_one.mp h
  have h1 : a ∈ l.filter p := List.mem_filter.mpr ⟨ha, hpa⟩
  have h2 : b ∈ l.filter p := List.mem_filter.mpr ⟨hb, hpb⟩
  rw [hx, List.mem_singleton] at h1 h2
  rw [h1, h2]

theorem filter_insertionSort_perm (grid : List Driver)
    (ds : Driver → DriverRaceState) (time : Driver → ℚ) :
    List.Perm
      ((grid.filter (fun d => (ds d).active)).insertionSort
          (fun a b => time a ≤ time b) ++
        (grid.filter (fun d => !(ds d).active)).insertionSort
          (fun a b => time b ≤ time a))
      grid := by
  refine List.Perm.trans
    (List.Perm.append (List.perm_insertionSort _ _) (List.perm_insertionSort _ _)) ?_
  exact List.filter_append_perm _ grid

/-- **C10.** In every result list produced by the base race simulation
with at least one competitor and at least one lap, exactly one result
record has its fastest-lap flag set; and when that record's status is not
"Finished" (a driver who later retired holds the fastest lap), no bonus
point is awarded to anyone — every competitor's points are exactly the
position-table amount. -/
theorem simulateRace_fastest_flag (track : Track) (w : Weather) (teams : List Team)
    (rng : Nat → Driver → LapRng) (grid : List Driver)
    (results : List DriverRaceResult)
    (hnd : grid.Nodup) (hne : grid ≠ []) (hlaps : 1 ≤ track.laps)
    (h : simulateRace track w teams rng grid = some results) :
    results.countP (fun r => r.fastest_lap) = 1 ∧
    (∀ r ∈ results, r.fastest_lap = true → r.status ≠ "Finished" →
      ∀ r2 ∈ results, r2.points =
        if r2.status = "Finished" ∧ r2.finishing_position ≤ 10 then
          points_system.getD (r2.finishing_position - 1) 0
        else 0) := by
  obtain ⟨final, hfold, hcomp⟩ := simulateRace_eq_some h
  obtain ⟨fd, hfd, hfdmem⟩ :=
    simulateRace_final_fastest track w teams rng grid hne hlaps hfold
  have hcomp2 := hcomp
  rw [compileResults] at hcomp2
  have hcount : results.countP (fun r => r.fastest_lap) = 1 := by
    rw [compileFrom_countP_flag teams grid final.ds final.time
      (final.fastest.map Prod.fst) hcomp2]
    rw [hfd]
    have hgridcount :
        (((grid.filter (fun d => (final.ds d).active)).insertionSort
          (fun a b => final.time a ≤ final.time b) ++
          (grid.filter (fun d => !(final.ds d).active)).insertionSort
          (fun a b => final.time b ≤ final.time a))).countP
          (fun d => decide (some fd = some d)) =
        grid.countP (fun d => decide (some fd = some d)) :=
      (filter_insertionSort_perm grid final.ds final.time).countP_eq _
    rw [hgridcount]
    have hcg : grid.countP (fun d => decide (some fd = some d)) =
        grid.countP (fun d => decide (fd = d)) :=
      List.countP_congr (fun a _ => by simp)
    rw [hcg]
    exact countP_decide_eq_one hnd hfdmem
  refine ⟨hcount, ?_⟩
  intro r hr hflag hnf r2 hr2
  obtain ⟨p2, d2, t2, _, _, hr2eq⟩ := compileFrom_mem teams grid final.ds final.time
    (final.fastest.map Prod.fst) hcomp2 r2 hr2
  have hpts : r2.points =
      if r2.status = "Finished" ∧ r2.finishing_position ≤ 10 then
        points_system.getD (r2.finishing_position - 1) 0
          + (if r2.fastest_lap = true then 1 else 0)
      else 0 := by
    rw [hr2eq]
    exact mkResult_points grid final.ds final.time (final.fastest.map Prod.fst) p2 d2 t2
  by_cases hf2 : r2.fastest_lap = true
  · have heq : r2 = r := countP_eq_one_unique hcount hr2 hf2 hr hflag
    subst heq
    rw [hpts]
    rw [if_neg (fun hc => hnf hc.1), if_neg (fun hc => hnf hc.1)]
  · have hff : r2.fastest_lap = false := by
      cases hfl : r2.fastest_lap
      · rfl
      · exact absurd hfl hf2
    rw [hpts, hff]
    simp

/-- Witness for C10 at the concrete two-driver, two-lap race. -/
theorem simulateRace_fastest_flag_witness :
    [driverA, driverB].Nodup ∧ [driverA, driverB] ≠ [] ∧ 1 ≤ sampleTrack.laps ∧
    simulateRace sampleTrack dryWeather [teamA, teamB] samplePenaltyRng
        [driverA, driverB] =
      some ((simulateRace sampleTrack dryWeather [teamA, teamB] samplePenaltyRng
        [driverA, driverB]).getD []) ∧
    (((simulateRace sampleTrack dryWeather [teamA, teamB] samplePenaltyRng
        [driverA, driverB]).getD []).countP (fun r => r.fastest_lap) = 1 ∧
    (∀ r ∈ (simulateRace sampleTrack dryWeather [teamA, teamB] samplePenaltyRng
        [driverA, driverB]).getD [], r.fastest_lap = true → r.status ≠ "Finished" →
      ∀ r2 ∈ (simulateRace sampleTrack dryWeather [teamA, teamB] samplePenaltyRng
        [driverA, driverB]).getD [], r2.points =
        if r2.status = "Finished" ∧ r2.finishing_position ≤ 10 then
          points_system.getD (r2.finishing_position - 1) 0
        else 0)) :=
  ⟨by decide, by decide, by decide, by decide,
   simulateRace_fastest_flag sampleTrack dryWeather [teamA, teamB] samplePenaltyRng
     [driverA, driverB] _ (by decide) (by decide) (by decide) (by decide)⟩

/-! ### Per-lap random variation (C7) -/

/-- Counterexample to C7 as stated: at a concrete driver/team/track/
weather/lap/position, the per-lap random variation draw `0.3` changes the
final lap time by `0.3 × pace ≈ 27` seconds, far more than 0.3 seconds —
the variation enters `final_lap_time` as a multiplier of the whole lap
time, not as an additive ±0.3s term. -/
theorem lap_jitter_not_additive :
    ¬ (|finalLapTime (calculateRacePace sampleTrack dryWeather driverA teamA 0)
          (tireDegradation sampleTrack 1) (fuelFactor 1) (trafficFactor 1) (3/10)
        - finalLapTime (calculateRacePace sampleTrack dryWeather driverA teamA 0)
          (tireDegradation sampleTrack 1) (fuelFactor 1) (trafficFactor 1) 0|
      ≤ 3/10) := by
  decide

/-- **C7 (amended).** The per-lap uniform random variation `rv ∈ [-0.3,
0.3]` is applied multiplicatively: it changes the final lap time by at
most `0.3 ×` the base race pace (about 27 seconds for a 90-second lap)
relative to the variation-free lap time — not by at most 0.3 seconds. -/
theorem lap_jitter_multiplicative_bound (lapTime tire fuel traffic rv : ℚ)
    (h1 : -(3/10) ≤ rv) (h2 : rv ≤ 3/10) (h0 : 0 ≤ lapTime) :
    |finalLapTime lapTime tire fuel traffic rv
      - finalLapTime lapTime tire fuel traffic 0| ≤ (3/10) * lapTime := by
  have hdiff : finalLapTime lapTime tire fuel traffic rv
      - finalLapTime lapTime tire fuel traffic 0 = lapTime * rv := by
    unfold finalLapTime
    ring
  rw [hdiff, abs_mul, abs_of_nonneg h0]
  calc lapTime * |rv| ≤ lapTime * (3/10) := by
        refine mul_le_mul_of_nonneg_left ?_ h0
        rw [abs_le]
        exact ⟨h1, h2⟩
    _ = (3/10) * lapTime := by ring

/-- Witness for the amended C7 at the concrete race pace of `driverA`. -/
theorem lap_jitter_multiplicative_bound_witness :
    (-(3/10) : ℚ) ≤ 3/10 ∧ ((3/10) : ℚ) ≤ 3/10 ∧
    (0 : ℚ) ≤ calculateRacePace sampleTrack dryWeather driverA teamA 0 ∧
    |finalLapTime (calculateRacePace sampleTrack dryWeather driverA teamA 0)
        (tireDegradation sampleTrack 1) (fuelFactor 1) (trafficFactor 1) (3/10)
      - finalLapTime (calculateRacePace sampleTrack dryWeather driverA teamA 0)
        (tireDegradation sampleTrack 1) (fuelFactor 1) (trafficFactor 1) 0|
      ≤ (3/10) * calculateRacePace sampleTrack dryWeather driverA teamA 0 :=
  ⟨by decide, by decide, by decide,
   lap_jitter_multiplicative_bound (calculateRacePace sampleTrack dryWeather driverA teamA 0)
     (tireDegradation sampleTrack 1) (fuelFactor 1) (trafficFactor 1) (3/10)
     (by decide) (by decide) (by decide)⟩

/-! ### Qualifying formula, sortedness and stability (C8) -/

/-- **C8.** The qualifying model computes, per competitor, the lap time
`90 + (length_km − 5)·5` plus the driver factor `5(1 − overall/100)`, the
car factor `3(1 − car/100)`, the track-specialization jitter, the weather
penalty (`2(1 − wet/100)` when wet, else `0.5(1 − dry/100)`) and the
uniform jitter; takes the minimum of three attempts with independent
multiplicative jitter as the representative time; and returns competitors
sorted ascending by representative time with ties broken by input
iteration order (the sort is stable). -/
theorem qualifying_model_refines_spec :
    (∀ (track : Track) (w : Weather) (d : Driver) (t : Team) (r : QualRng),
      qualifyingLapTime track w d t r = specQualifyingLapTime track w d t r) ∧
    (∀ (track : Track) (w : Weather) (d : Driver) (t : Team) (r : QualRng),
      qualifyingBestTime track w d t r = specQualifyingBestTime track w d t r) ∧
    (∀ (track : Track) (w : Weather) (teams : List Team) (rng : Nat → QualRng)
      (drivers : List Driver) (perfs : List (Driver × ℚ)),
      qualifyingPerformances track w teams rng 0 drivers = some perfs →
      simulateQualifying track w teams rng drivers =
        some ((perfs.insertionSort (fun a b => a.2 ≤ b.2)).map Prod.fst) ∧
      List.Pairwise (fun a b : Driver × ℚ => a.2 ≤ b.2)
        (perfs.insertionSort (fun a b => a.2 ≤ b.2)) ∧
      (∀ p q : Driver × ℚ, List.Sublist [p, q] perfs → p.2 ≤ q.2 →
        List.Sublist [p, q] (perfs.insertionSort (fun a b => a.2 ≤ b.2)))) := by
  refine ⟨fun track w d t r => rfl, fun track w d t r => ?_, fun track w teams rng drivers perfs hp => ?_⟩
  · rw [qualifyingBestTime, specQualifyingBestTime, min_assoc]
    rfl
  · refine ⟨by simp [simulateQualifying, hp, bind, Option.bind], ?_, ?_⟩
    · exact sorted_insertionSort_of (fun a b : Driver × ℚ => a.2 ≤ b.2)
        (fun a b => le_total _ _) (fun a b c => le_trans) perfs
    · intro p q hsub hle
      exact List.pair_sublist_insertionSort hle hsub

/-- Witness for C8 at a concrete field and jitter-free draws. -/
theorem qualifying_model_refines_spec_witness :
    qualifyingLapTime sampleTrack dryWeather driverA teamA zeroQualRng =
      specQualifyingLapTime sampleTrack dryWeather driverA teamA zeroQualRng ∧
    qualifyingBestTime sampleTrack dryWeather driverA teamA zeroQualRng =
      specQualifyingBestTime sampleTrack dryWeather driverA teamA zeroQualRng ∧
    qualifyingPerformances sampleTrack dryWeather [teamA, teamB] cleanQualRng 0
        [driverB, driverA] =
      some ((qualifyingPerformances sampleTrack dryWeather [teamA, teamB]
        cleanQualRng 0 [driverB, driverA]).getD []) ∧
    (simulateQualifying sampleTrack dryWeather [teamA, teamB] cleanQualRng
        [driverB, driverA] =
      some ((((qualifyingPerformances sampleTrack dryWeather [teamA, teamB]
          cleanQualRng 0 [driverB, driverA]).getD []).insertionSort
            (fun a b => a.2 ≤ b.2)).map Prod.fst) ∧
      List.Pairwise (fun a b : Driver × ℚ => a.2 ≤ b.2)
        (((qualifyingPerformances sampleTrack dryWeather [teamA, teamB]
          cleanQualRng 0 [driverB, driverA]).getD []).insertionSort
            (fun a b => a.2 ≤ b.2)) ∧
      (∀ p q : Driver × ℚ,
        List.Sublist [p, q] ((qualifyingPerformances sampleTrack dryWeather
          [teamA, teamB] cleanQualRng 0 [driverB, driverA]).getD []) → p.2 ≤ q.2 →
        List.Sublist [p, q] (((qualifyingPerformances sampleTrack dryWeather
          [teamA, teamB] cleanQualRng 0 [driverB, driverA]).getD []).insertionSort
            (fun a b => a.2 ≤ b.2)))) :=
  ⟨qualifying_model_refines_spec.1 sampleTrack dryWeather driverA teamA zeroQualRng,
   qualifying_model_refines_spec.2.1 sampleTrack dryWeather driverA teamA zeroQualRng,
   by decide,
   qualifying_model_refines_spec.2.2 sampleTrack dryWeather [teamA, teamB]
     cleanQualRng [driverB, driverA] _ (by decide)⟩

/-! ### Enhancement overlay post-race adjustment (C6) -/

/-- Counterexample to C6 as stated. First conjunct: with no external data
and no firing draws, the input result with status "DSQ" (driverB's) is
absent from the output — the re-sort keeps only "Finished" and "DNF"
records, so an input result is not preserved. Second conjunct: with a
low-reliability team match and firing draws, a Finished record holding 25
points is rewritten to a non-Finished status while keeping its 25 points —
so points are not nonzero only for Finished competitors. -/
theorem applyRealDataRaceAdjustments_counterexample :
    ((applyRealDataRaceAdjustments emptyDriverData idName [] idName noAdjustRng
        [baseResultFin, baseResultDsq]).filter
      (fun r => r.driver == driverB)).length = 0 ∧
    ((applyRealDataRaceAdjustments emptyDriverData idName lowRelTeamData idName
        fireAdjustRng [baseResultFin, baseResultDsq]).countP
      (fun r => !(r.status == "Finished") && decide (r.points = 25))) = 1 := by
  decide

theorem getElem_enum_map {α β : Type} (l : List α) (f : Nat × α → β) (i : Nat)
    (h : i < (l.enum.map f).length) :
    (l.enum.map f).get ⟨i, h⟩ = f (i, l.get ⟨i, by simpa using h⟩) := by
  rw [List.get_eq_getElem]
  simp [List.enum_eq_enumFrom, List.get_eq_getElem]

theorem map_driver_enum_map (f : Nat → DriverRaceResult → DriverRaceResult)
    (hf : ∀ i r, (f i r).driver = r.driver) (l : List DriverRaceResult) :
    (l.enum.map (fun p => f p.1 p.2)).map (fun r => r.driver) =
      l.map (fun r => r.driver) := by
  apply List.ext_get
  · simp
  · intro i h1 h2
    simp [List.get_eq_getElem, List.enum_eq_enumFrom, hf]

theorem mem_enum_map {α β : Type} {l : List α} {f : Nat × α → β} {x : β}
    (hx : x ∈ l.enum.map f) : ∃ i a, a ∈ l ∧ x = f (i, a) := by
  rw [List.mem_map] at hx
  obtain ⟨p, hp, rfl⟩ := hx
  have h2 : p.2 ∈ (l.enum).map Prod.snd := List.mem_map_of_mem Prod.snd hp
  rw [List.enum_eq_enumFrom, List.enumFrom_map_snd] at h2
  exact ⟨p.1, p.2, h2, rfl⟩

/-- **C6 (amended).** For every base result list, every set of external
statistics and every outcome of the random draws, the post-race
adjustment keeps exactly the adjusted records whose status is "Finished"
or "DNF": positions in the returned list are renumbered 1..M, the
"Finished" records come first (re-sorted by adjusted position then time)
followed by the "DNF" records in their prior relative order, each
returned record is its adjusted record unchanged except the finishing
position (in particular points are carried over, not recomputed), and the
returned drivers are exactly the drivers of the adjusted "Finished" and
"DNF" records. Adjusted records with any other status ("DSQ") are
dropped, so the compiler's ordering/points invariants are not preserved
in general (see the counterexample). -/
theorem applyRealDataRaceAdjustments_structure
    (dd : String → Option RealDriverStats) (ab : String → String)
    (td : List (String × RealTeamStats)) (cl : String → String)
    (rng : Nat → AdjustRng) (results : List DriverRaceResult) :
    (∀ i (h : i < (applyRealDataRaceAdjustments dd ab td cl rng results).length),
      ((applyRealDataRaceAdjustments dd ab td cl rng results).get
        ⟨i, h⟩).finishing_position = i + 1) ∧
    List.Perm
      ((applyRealDataRaceAdjustments dd ab td cl rng results).map (fun r => r.driver))
      (((adjustedResults dd ab td cl rng results).filter
          (fun r => r.status == "Finished")).map (fun r => r.driver) ++
        ((adjustedResults dd ab td cl rng results).filter
          (fun r => r.status == "DNF")).map (fun r => r.driver)) ∧
    (∀ r ∈ applyRealDataRaceAdjustments dd ab td cl rng results,
      ∃ r0 ∈ adjustedResults dd ab td cl rng results,
        r.driver = r0.driver ∧ r.status = r0.status ∧ r.points = r0.points ∧
          r.time = r0.time ∧ r.incident = r0.incident) ∧
    List.Pairwise (fun r1 r2 : DriverRaceResult =>
      r2.status = "Finished" → r1.status = "Finished")
      (applyRealDataRaceAdjustments dd ab td cl rng results) ∧
    (∀ r ∈ applyRealDataRaceAdjustments dd ab td cl rng results,
      r.status = "Finished" ∨ r.status = "DNF") := by
  have hF : ∀ r ∈ (((adjustedResults dd ab td cl rng results).filter
      (fun r => r.status == "Finished")).insertionSort (fun a b =>
        a.finishing_position < b.finishing_position ∨
          (a.finishing_position = b.finishing_position ∧ a.time ≤ b.time))).enum.map
      (fun p : Nat × DriverRaceResult => { p.2 with finishing_position := p.1 + 1 }),
      r.status = "Finished" ∧ ∃ r0 ∈ adjustedResults dd ab td cl rng results,
        r.driver = r0.driver ∧ r.status = r0.status ∧ r.points = r0.points ∧
          r.time = r0.time ∧ r.incident = r0.incident := by
    intro r hr
    obtain ⟨i, r0, hr0, rfl⟩ := mem_enum_map hr
    rw [List.mem_insertionSort, List.mem_filter] at hr0
    have hst : r0.status = "Finished" := by
      have := hr0.2
      simpa using this
    exact ⟨hst, r0, hr0.1, rfl, rfl, rfl, rfl, rfl⟩
  have hD : ∀ r ∈ ((adjustedResults dd ab td cl rng results).filter
      (fun r => r.status == "DNF")).enum.map
      (fun p : Nat × DriverRaceResult => { p.2 with finishing_position :=
        (((adjustedResults dd ab td cl rng results).filter
          (fun r : DriverRaceResult => r.status == "Finished")).insertionSort
            (fun a b : DriverRaceResult =>
              a.finishing_position < b.finishing_position ∨
                (a.finishing_position = b.finishing_position ∧ a.time ≤ b.time))).length
          + p.1 + 1 }),
      r.status = "DNF" ∧ ∃ r0 ∈ adjustedResults dd ab td cl rng results,
        r.driver = r0.driver ∧ r.status = r0.status ∧ r.points = r0.points ∧
          r.time = r0.time ∧ r.incident = r0.incident := by
    intro r hr
    obtain ⟨i, r0, hr0, rfl⟩ := mem_enum_map hr
    rw [List.mem_filter] at hr0
    have hst : r0.status = "DNF" := by
      have := hr0.2
      simpa using this
    exact ⟨hst, r0, hr0.1, rfl, rfl, rfl, rfl, rfl⟩
  refine ⟨?_, ?_, ?_, ?_, ?_⟩
  · intro i h
    simp only [applyRealDataRaceAdjustments] at h ⊢
    by_cases hi : i < ((((adjustedResults dd ab td cl rng results).filter
        (fun r => r.status == "Finished")).insertionSort (fun a b =>
          a.finishing_position < b.finishing_position ∨
            (a.finishing_position = b.finishing_position ∧ a.time ≤ b.time))).enum.map
        (fun p : Nat × DriverRaceResult =>
          { p.2 with finishing_position := p.1 + 1 })).length
    · rw [List.get_append_left _ _ hi, getElem_enum_map]
    · push_neg at hi
      rw [List.get_append_right _ _ hi, getElem_enum_map]
      all_goals simp only [List.length_map, List.enum_length, List.length_append] at h hi ⊢
      all_goals omega
  · simp only [applyRealDataRaceAdjustments]
    rw [List.map_append]
    rw [map_driver_enum_map (fun i r => { r with finishing_position := i + 1 })
      (fun i r => rfl)]
    rw [map_driver_enum_map (fun i r => { r with finishing_position :=
      (((adjustedResults dd ab td cl rng results).filter
        (fun r => r.status == "Finished")).insertionSort (fun a b =>
          a.finishing_position < b.finishing_position ∨
            (a.finishing_position = b.finishing_position ∧ a.time ≤ b.time))).length
        + i + 1 }) (fun i r => rfl)]
    refine List.Perm.append ?_ (List.Perm.refl _)
    exact (List.perm_insertionSort _ _).map _
  · intro r hr
    simp only [applyRealDataRaceAdjustments] at hr
    rw [List.mem_append] at hr
    rcases hr with hr | hr
    · exact (hF r hr).2
    · exact (hD r hr).2
  · simp only [applyRealDataRaceAdjustments]
    rw [List.pairwise_append]
    refine ⟨?_, ?_, ?_⟩
    · refine List.pairwise_of_forall_mem_list ?_
      intro a ha b _
      intro _
      exact (hF a ha).1
    · refine List.pairwise_of_forall_mem_list ?_
      intro a _ b hb
      intro h2
      rw [(hD b hb).1] at h2
      exact absurd h2 (by decide)
    · intro a ha b _
      intro _
      exact (hF a ha).1
  · intro r hr
    simp only [applyRealDataRaceAdjustments] at hr
    rw [List.mem_append] at hr
    rcases hr with hr | hr
    · exact Or.inl (hF r hr).1
    · exact Or.inr (hD r hr).1

/-- Witness for the amended C6 at a concrete instantiation (firing
reliability adjustment, one Finished and one DSQ input record). -/
theorem applyRealDataRaceAdjustments_structure_witness :
    (∀ i (h : i < (applyRealDataRaceAdjustments emptyDriverData idName lowRelTeamData
        idName fireAdjustRng [baseResultFin, baseResultDsq]).length),
      ((applyRealDataRaceAdjustments emptyDriverData idName lowRelTeamData idName
        fireAdjustRng [baseResultFin, baseResultDsq]).get
        ⟨i, h⟩).finishing_position = i + 1) ∧
    List.Perm
      ((applyRealDataRaceAdjustments emptyDriverData idName lowRelTeamData idName
        fireAdjustRng [baseResultFin, baseResultDsq]).map (fun r => r.driver))
      (((adjustedResults emptyDriverData idName lowRelTeamData idName fireAdjustRng
          [baseResultFin, baseResultDsq]).filter
          (fun r => r.status == "Finished")).map (fun r => r.driver) ++
        ((adjustedResults emptyDriverData idName lowRelTeamData idName fireAdjustRng
          [baseResultFin, baseResultDsq]).filter
          (fun r => r.status == "DNF")).map (fun r => r.driver)) ∧
    (∀ r ∈ applyRealDataRaceAdjustments emptyDriverData idName lowRelTeamData idName
        fireAdjustRng [baseResultFin, baseResultDsq],
      ∃ r0 ∈ adjustedResults emptyDriverData idName lowRelTeamData idName fireAdjustRng
          [baseResultFin, baseResultDsq],
        r.driver = r0.driver ∧ r.status = r0.status ∧ r.points = r0.points ∧
          r.time = r0.time ∧ r.incident = r0.incident) ∧
    List.Pairwise (fun r1 r2 : DriverRaceResult =>
      r2.status = "Finished" → r1.status = "Finished")
      (applyRealDataRaceAdjustments emptyDriverData idName lowRelTeamData idName
        fireAdjustRng [baseResultFin, baseResultDsq]) ∧
    (∀ r ∈ applyRealDataRaceAdjustments emptyDriverData idName lowRelTeamData idName
        fireAdjustRng [baseResultFin, baseResultDsq],
      r.status = "Finished" ∨ r.status = "DNF") :=
  applyRealDataRaceAdjustments_structure emptyDriverData idName lowRelTeamData idName
    fireAdjustRng [baseResultFin, baseResultDsq]

end F1
